import Mathlib

/-!
# Coffee-Shop-Scheduler: the dashboard client (`src/App.js`)

A shallow embedding of the `Dashboard` component of the React client and the
properties of it that the specification relies on.

Conventions of the embedding.

* Clock readings (`Date.now()`, `new Date(x).getTime()`) are whole numbers of
  milliseconds, so they are `Int`; an unparsable date reads as `NaN`, which is
  `none`.
* A JavaScript number that is not `NaN` is modelled by its exact value in `ℚ`.
  Every comparison below is either between a quotient of whole milliseconds and
  a small integer, or between a number and one of the literals `1.2`, `0.8`;
  in both cases the IEEE comparison and the exact comparison agree (no double
  lies strictly between a decimal literal and the double nearest to it).
* React state is passed explicitly; what a handler sends is returned as a list
  of effects.
-/

namespace CoffeeShop

/-! ## JavaScript values -/

/-- The primitive values a parsed JSON document can hold, and `undefined`
(what reading an absent property gives). -/
inductive JsVal where
  | undefined
  | null
  | bool (b : Bool)
  | num (q : ℚ)
  | str (s : String)
  deriving DecidableEq

/-- An object with primitive properties, each key listed once. -/
abbrev JsObj := List (String × JsVal)

/-- Property read `o.key` (equally `o[key]`): `undefined` when absent. -/
def getProp (o : JsObj) (key : String) : JsVal :=
  (o.lookup key).getD JsVal.undefined

/-- JavaScript `ToBoolean`. -/
def truthy : JsVal → Bool
  | .undefined => false
  | .null => false
  | .bool b => b
  | .num q => decide (q ≠ 0)
  | .str s => decide (s ≠ "")

/-- The constant `API_BASE`. -/
def API_BASE : String := "http://localhost:8080/api"

/-! ## Elapsed wait and the card highlight -/

/-- The expression `(Date.now() - new Date(order.arrivalTime).getTime()) / 60000`
for a valid arrival time. -/
def waitMinutes (now arrival : Int) : ℚ := ((now - arrival : Int) : ℚ) / 60000

/-- The function `getOrderClass(order)`, with `now` the reading of `Date.now()` and
`arrivalTime` the value of `new Date(order.arrivalTime).getTime()`. With `NaN`
both comparisons are false. -/
def getOrderClass (now : Int) (arrivalTime : Option Int) : String :=
  match arrivalTime with
  | none => ""
  | some a =>
    if waitMinutes now a ≥ 8 then "urgent"
    else if waitMinutes now a ≥ 6 then "warning"
    else ""

/-! ## The new-order form -/

/-- The four pieces of form state of `Dashboard`. -/
structure Form where
  drinkName : String
  prepTime : Nat
  loyaltyTier : Nat
  isRegular : Bool
  deriving DecidableEq

/-- The `useState` initial values: `''`, `3`, `1`, `false`. -/
def Form.initial : Form := { drinkName := "", prepTime := 3, loyaltyTier := 1, isRegular := false }

/-- The logged-in user handed to `Dashboard` (`{ username, token }`). -/
structure User where
  username : String
  token : String
  deriving DecidableEq

/-- The `value` attributes of the options of the prep-time `<select>`. -/
def prepTimeOptions : List Nat := [2, 3, 4, 5, 6, 8]

/-- The `value` attributes of the options of the loyalty-tier `<select>`. -/
def loyaltyTierOptions : List Nat := [1, 2, 3, 4, 5]

/-- ECMAScript `WhiteSpace` and `LineTerminator` code points, the characters
`String.prototype.trim` strips. -/
def isJsWhiteSpace (c : Char) : Bool :=
  c.toNat ∈ [0x09, 0x0A, 0x0B, 0x0C, 0x0D, 0x20, 0xA0, 0x1680, 0x2028, 0x2029,
    0x202F, 0x205F, 0x3000, 0xFEFF] || (0x2000 ≤ c.toNat && c.toNat ≤ 0x200A)

/-- The method `s.trim()`: white space removed from both ends. -/
def jsTrim (s : String) : String :=
  String.mk ((s.data.dropWhile isJsWhiteSpace).reverse.dropWhile isJsWhiteSpace).reverse

/-- An HTTP request handed to `fetch`. `body` is the object given to
`JSON.stringify`, as serialised by `jsonStringify`. -/
structure Request where
  method : String
  url : String
  headers : List (String × String)
  body : Option JsObj
  deriving DecidableEq

/-- What a handler does besides updating state, in program order. -/
inductive Effect where
  | fetch (r : Request)
  | fetchData
  | consoleError (msg : String)
  deriving DecidableEq

/-- The properties `JSON.stringify` writes for an object, in order: those whose
value is not `undefined`. The text encoding itself is not modelled. -/
def jsonStringify (o : JsObj) : JsObj :=
  o.filter (fun kv => decide (kv.2 ≠ JsVal.undefined))

/-- The request built in `handleSubmit`. -/
def orderRequest (user : User) (f : Form) : Request :=
  { method := "POST"
    url := API_BASE ++ "/orders"
    headers := [("Content-Type", "application/json")]
    body := some (jsonStringify
      [("drinkName", JsVal.str f.drinkName),
       ("prepTimeMinutes", JsVal.num f.prepTime),
       ("loyaltyTier", JsVal.num f.loyaltyTier),
       ("isRegularCustomer", JsVal.bool f.isRegular),
       ("username", JsVal.str user.username)]) }

/-- The handler `handleSubmit`: the new form state and the effects. `fetchOk`
tells whether the awaited `fetch` resolved (`true`) or rejected (`false`, the
`catch` branch). `e.preventDefault()` touches neither state nor network. -/
def handleSubmit (user : User) (f : Form) (fetchOk : Bool) : Form × List Effect :=
  if jsTrim f.drinkName = "" then (f, [])
  else if fetchOk then
    ({ f with drinkName := "" }, [Effect.fetch (orderRequest user f), Effect.fetchData])
  else
    (f, [Effect.fetch (orderRequest user f), Effect.consoleError "Failed to create order:"])

/-- What the user can do with the form. A `<select>` offers its options only:
`onChange` stores `Number(e.target.value)`, the number written in the chosen
option's `value` attribute. -/
inductive FormEvent where
  | typeDrinkName (value : String)
  | selectPrepTime (option : Fin prepTimeOptions.length)
  | selectLoyaltyTier (option : Fin loyaltyTierOptions.length)
  | setRegular (checked : Bool)
  | submit (fetchOk : Bool)

/-- One event applied to the form state. -/
def formStep (user : User) (f : Form) : FormEvent → Form
  | .typeDrinkName value => { f with drinkName := value }
  | .selectPrepTime option => { f with prepTime := prepTimeOptions.get option }
  | .selectLoyaltyTier option => { f with loyaltyTier := loyaltyTierOptions.get option }
  | .setRegular checked => { f with isRegular := checked }
  | .submit fetchOk => (handleSubmit user f fetchOk).1

/-- The form state after a sequence of events, from the initial state. -/
def formAfter (user : User) (events : List FormEvent) : Form :=
  events.foldl (formStep user) Form.initial

/-! ## Order cards -/

/-- The text `String(n)` of a whole number `n` of magnitude below 2^53: its
plain decimal numeral. Every such number is a double and prints exactly; a
larger one prints with rounded digits or, from 1e21 on, in exponent form
('1e+21'), which is not modelled (`none`). -/
def wholeNumberText (n : Int) : Option String :=
  if n.natAbs < 9007199254740992 then some (toString n) else none

/-- The text `String(x)` of a number: that of a whole number of magnitude below
2^53; the text of other numbers is not modelled (`none`). -/
def numberText (q : ℚ) : Option String :=
  if q.den = 1 then wholeNumberText q.num else none

/-- The text React renders for a primitive child: nothing for `undefined`,
`null` and booleans, the string itself, the number as text. -/
def jsxText : JsVal → Option String
  | .undefined => some ""
  | .null => some ""
  | .bool _ => some ""
  | .str s => some s
  | .num q => numberText q

/-- The marker `order.regularCustomer ? '★' : ''`. -/
def regularMarker (order : JsObj) : String :=
  if truthy (getProp order "regularCustomer") then "★" else ""

/-- The loyalty label of an order card,
`T{order.loyaltyTier}{order.regularCustomer ? '★' : ''}`. -/
def loyaltyLabel (order : JsObj) : Option String :=
  (jsxText (getProp order "loyaltyTier")).map (fun tier => "T" ++ tier ++ regularMarker order)

/-! ## Alerts -/

/-- Whether `p` occurs in `l` as a contiguous block. -/
def hasInfix : List Char → List Char → Bool
  | [], p => p.isPrefixOf []
  | c :: cs, p => p.isPrefixOf (c :: cs) || hasInfix cs p

/-- The method `s.includes(sub)`. -/
def includes (s sub : String) : Bool := hasInfix s.data sub.data

/-- The style chosen in the alert item's `className`. -/
def alertStyle (alert : String) : String :=
  if includes alert "CRITICAL" then "critical"
  else if includes alert "FAIRNESS" then "fairness"
  else "warning"

/-- The alert item's `className`. -/
def alertClassName (alert : String) : String := "alert-item " ++ alertStyle alert

/-- The expression `alerts.slice(-5).reverse()`: the list that is mapped to
alert items. -/
def displayedAlerts (alerts : List String) : List String :=
  (alerts.drop (alerts.length - 5)).reverse

/-- The guard `alerts.length > 0` of the alert panel. -/
def alertsPanelRendered (alerts : List String) : Bool := decide (alerts.length > 0)

/-! ## Barista cards -/

/-- An entry of `barista.assignedOrders`, with the properties the card reads. -/
structure AssignedOrder where
  id : Nat
  drinkName : String
  status : String
  deriving DecidableEq

/-- A record of `GET /baristas`. An absent (`undefined` or `null`) property is
`none`. -/
structure Barista where
  id : Nat
  name : String
  available : Bool
  assignedOrders : Option (List AssignedOrder)
  totalPendingMinutes : Option ℚ
  deriving DecidableEq

/-- An entry of `stats.baristaWorkloads`. -/
structure WorkloadEntry where
  ratio : Option ℚ
  deriving DecidableEq

/-- The part of `GET /stats` the barista cards read. -/
structure Stats where
  baristaWorkloads : Option (List (String × WorkloadEntry))
  deriving DecidableEq

/-- The expression `v || d` for an optional number `v`: `d` when `v` is falsy,
that is absent or zero. -/
def orDefault (v : Option ℚ) (d : ℚ) : ℚ :=
  match v with
  | some r => if r ≠ 0 then r else d
  | none => d

/-- The optional chain `stats.baristaWorkloads?.[barista.name]?.ratio`. -/
def reportedRatio (stats : Stats) (barista : Barista) : Option ℚ :=
  (stats.baristaWorkloads.bind (fun m => m.lookup barista.name)).bind (fun e => e.ratio)

/-- The constant `workloadRatio` of a barista card. -/
def workloadRatio (stats : Stats) (barista : Barista) : ℚ :=
  orDefault (reportedRatio stats barista) 1

/-- The colour of the ratio text. -/
def ratioColor (workloadRatio : ℚ) : String :=
  if workloadRatio > 1.2 then "#ff6b6b"
  else if workloadRatio < 0.8 then "#4ecdc4"
  else "#a0a0c0"

/-- The `className` of the workload bar's fill. -/
def workloadFillClass (workloadRatio : ℚ) : String :=
  "workload-fill " ++ (if workloadRatio > 1.2 then "high" else "")

/-- The constant `currentOrder`:
`barista.assignedOrders?.find(o => o.status === 'IN_PROGRESS')`. -/
def currentOrder (barista : Barista) : Option AssignedOrder :=
  barista.assignedOrders.bind (fun orders => orders.find? (fun o => o.status == "IN_PROGRESS"))

/-- The request sent by `handleComplete`. -/
def completeRequest (baristaId : Nat) : Request :=
  { method := "POST"
    url := API_BASE ++ "/baristas/" ++ toString baristaId ++ "/complete"
    headers := []
    body := none }

/-- The handler `handleComplete(baristaId)`; `fetchOk` as in `handleSubmit`. -/
def handleComplete (baristaId : Nat) (fetchOk : Bool) : List Effect :=
  if fetchOk then [Effect.fetch (completeRequest baristaId), Effect.fetchData]
  else [Effect.fetch (completeRequest baristaId), Effect.consoleError "Failed to complete order:"]

/-- The conditional parts of a barista card: the order of the 'Making:' panel
when the panel is rendered, and the `onClick` handler of the 'Complete Order'
button when the button is rendered. -/
structure BaristaCard where
  making : Option AssignedOrder
  completeOnClick : Option (Bool → List Effect)

/-- The card rendered for one barista. -/
def baristaCard (barista : Barista) : BaristaCard :=
  { making := currentOrder barista
    completeOnClick := if barista.available then none else some (handleComplete barista.id) }

/-! ## The wait text and the order queue -/

/-- The function `Math.floor`. -/
def mathFloor (x : ℚ) : Int := ⌊x⌋

/-- The function `Math.round`: the nearest integer, a tie going up. -/
def mathRound (x : ℚ) : Int := ⌊x + 1 / 2⌋

/-- The remainder `a % b` of JavaScript on whole numbers: it has the sign of
`a`. -/
def jsRem (a b : Int) : Int := Int.tmod a b

/-- The constant `minutes` of `formatWait` for a valid arrival time:
`Math.floor((Date.now() - arrival) / 60000)`. -/
def waitWholeMinutes (now arrival : Int) : Int :=
  mathFloor (((now - arrival : Int) : ℚ) / 60000)

/-- The constant `seconds` of `formatWait` for a valid arrival time:
`Math.floor(((Date.now() - arrival) % 60000) / 1000)`. -/
def waitSeconds (now arrival : Int) : Int :=
  mathFloor (((jsRem (now - arrival) 60000 : Int) : ℚ) / 1000)

/-- The function `formatWait(arrivalTime)`. The body reads the clock twice:
`now1` is the reading used for the minutes, `now2` the one used for the
seconds. An unparsable date gives `NaN` in both places. -/
def formatWait (now1 now2 : Int) (arrivalTime : Option Int) : String :=
  match arrivalTime with
  | none => "NaNm NaNs"
  | some a => toString (waitWholeMinutes now1 a) ++ "m " ++ toString (waitSeconds now2 a) ++ "s"

/-- The text of `{Math.round(order.priority)}`. `Math.round` turns `undefined`
into `NaN`, `null` into 0 and a boolean into 0 or 1; the conversion of a string
is not modelled (`none`), nor is the text of a rounded value of magnitude 2^53
or more. -/
def priorityText (order : JsObj) : Option String :=
  match getProp order "priority" with
  | .num q => wholeNumberText (mathRound q)
  | .undefined => some "NaN"
  | .null => some "0"
  | .bool b => some (if b then "1" else "0")
  | .str _ => none

/-- One card of the queue list: the order it was rendered from and the parts
computed from it. -/
structure OrderCard where
  order : JsObj
  key : JsVal
  className : String
  wait : String
  loyalty : Option String
  priority : Option String

/-- The card `queue.map` builds for one order. `getTime` stands for
`new Date(x).getTime()`, `now` for the reading of `Date.now()` during the
render. -/
def orderCard (getTime : JsVal → Option Int) (now : Int) (order : JsObj) : OrderCard :=
  { order := order
    key := getProp order "id"
    className := "order-card " ++ getOrderClass now (getTime (getProp order "arrivalTime"))
    wait := formatWait now now (getTime (getProp order "arrivalTime"))
    loyalty := loyaltyLabel order
    priority := priorityText order }

/-- The 'Order Queue' section: the count in the header, whether the empty
state is shown, and the cards. -/
structure QueueSection where
  headerCount : Nat
  emptyState : Bool
  cards : List OrderCard

/-- The section rendered for the `queue` state. -/
def queueSection (getTime : JsVal → Option Int) (now : Int) (queue : List JsObj) :
    QueueSection :=
  { headerCount := queue.length
    emptyState := decide (queue.length = 0)
    cards := if queue.length = 0 then [] else queue.map (orderCard getTime now) }

/-- The four pieces of server state kept by `Dashboard`. -/
structure DashboardData where
  queue : List JsObj
  baristas : List Barista
  stats : Stats
  alerts : List String

/-- The `useState` initial values `[]`, `[]`, `{}`, `[]`. -/
def DashboardData.initial : DashboardData :=
  { queue := [], baristas := [], stats := { baristaWorkloads := none }, alerts := [] }

/-- The parsed bodies of the four responses of `fetchData`; `none` where
`res.json()` rejects. -/
structure FetchedBodies where
  queue : Option (List JsObj)
  baristas : Option (List Barista)
  stats : Option Stats
  alerts : Option (List String)

/-- The state updates of `fetchData`. `responses` is `none` when `Promise.all`
rejects; otherwise the bodies are awaited and stored one after the other, and
the first rejection leaves the remaining pieces as they were. -/
def fetchData (d : DashboardData) (responses : Option FetchedBodies) : DashboardData :=
  match responses with
  | none => d
  | some r =>
    match r.queue with
    | none => d
    | some q =>
      match r.baristas with
      | none => { d with queue := q }
      | some b =>
        match r.stats with
        | none => { d with queue := q, baristas := b }
        | some s =>
          match r.alerts with
          | none => { d with queue := q, baristas := b, stats := s }
          | some a => { queue := q, baristas := b, stats := s, alerts := a }

/-! ## The priority formula -/

/-- The text of the formula banner in the `Dashboard` header. -/
def formulaBanner : String :=
  "Formula: (0.40 × Wait) + (0.25 × Complexity) + (0.10 × Loyalty) + (0.25 × Urgency)"

/-- Modelled from the spec: one weighted term of the priority formula of the
Priority Calculator (§4.1), which is not part of the client source. The weight
is given in hundredths. -/
structure WeightedTerm where
  hundredths : Nat
  name : String
  deriving DecidableEq

/-- Modelled from the spec: the four terms of
`priority = 0.40·wait + 0.25·complexity + 0.10·loyalty + 0.25·urgency` (§4.1),
in this order. -/
def priorityTerms : List WeightedTerm :=
  [⟨40, "Wait"⟩, ⟨25, "Complexity"⟩, ⟨10, "Loyalty"⟩, ⟨25, "Urgency"⟩]

/-- Modelled from the spec: the weight of a term as a number. -/
def WeightedTerm.weight (t : WeightedTerm) : ℚ := (t.hundredths : ℚ) / 100

/-- A weight below 1 written with two decimals, as the banner writes it. -/
def weightText (hundredths : Nat) : String :=
  "0." ++ (if hundredths < 10 then "0" else "") ++ toString hundredths

/-- A list of weighted terms written the way the banner writes its formula. -/
def formulaText (terms : List WeightedTerm) : String :=
  "Formula: " ++ " + ".intercalate
    (terms.map (fun t => "(" ++ weightText t.hundredths ++ " × " ++ t.name ++ ")"))

/-- Modelled from the spec: the combination of the four sub-scores (§4.1),
each term of `priorityTerms` weighting the sub-score at its position. -/
def combinedScore (wait complexity loyalty urgency : ℚ) : ℚ :=
  (List.zipWith (fun t x => t.weight * x) priorityTerms
    [wait, complexity, loyalty, urgency]).sum

/-- Modelled from the spec: the combined score 'scaled to a 0–100 display
range' (§4.1). -/
def scaledPriority (wait complexity loyalty urgency : ℚ) : ℚ :=
  100 * combinedScore wait complexity loyalty urgency

/-! ## The scheduler behind the client

The client source holds no scheduling code; the engine it polls is described
by the specification only (§3, §4). The definitions of this section follow
that description. The explanation string of a score is not modelled. -/

/-- Modelled from the spec: the status of an order (§3), the scheduler not
being part of the client source. -/
inductive OrderStatus where
  | QUEUED
  | IN_PROGRESS
  | COMPLETED
  | TIMED_OUT
  deriving DecidableEq

/-- Modelled from the spec: the name under which a status is reported. -/
def OrderStatus.name : OrderStatus → String
  | .QUEUED => "QUEUED"
  | .IN_PROGRESS => "IN_PROGRESS"
  | .COMPLETED => "COMPLETED"
  | .TIMED_OUT => "TIMED_OUT"

/-- Modelled from the spec: an Order of the scheduler (§3); times are in
milliseconds. -/
structure SchedOrder where
  id : Nat
  drinkName : String
  prepTimeMinutes : Nat
  loyaltyTier : Nat
  isRegularCustomer : Bool
  arrivalTime : Int
  status : OrderStatus
  skipCount : Nat
  priority : ℚ
  assignedWorkerId : Option Nat
  deriving DecidableEq

/-- Modelled from the spec: a Worker (§3). `assignedOrders` is the append-only
history of the ids of the orders dispatched to the worker. -/
structure Worker where
  id : Nat
  name : String
  available : Bool
  assignedOrders : List Nat
  deriving DecidableEq

/-- Modelled from the spec: the state owned by the Dispatch Engine (§4.3, §9):
the orders, the fixed worker pool, the next order id, the alert log and the
timeout counter. -/
structure Scheduler where
  orders : List SchedOrder
  workers : List Worker
  nextOrderId : Nat
  alerts : List String
  timeoutCount : Nat

/-- Modelled from the spec: the two constants §4.1 leaves open, the bonus of a
regular customer and the boost per skip. -/
structure ScoreConfig where
  regularBonus : ℚ
  skipBoost : ℚ

/-- Modelled from the spec: the scheduler constructed with a fixed pool of
idle workers (§3, §9), numbered from 1. -/
def Scheduler.init (names : List String) : Scheduler :=
  { orders := []
    workers := names.enum.map (fun p => { id := p.1 + 1, name := p.2, available := true,
                                          assignedOrders := [] })
    nextOrderId := 1
    alerts := []
    timeoutCount := 0 }

/-- Modelled from the spec: the elapsed wait of an order in minutes. -/
def elapsedMinutes (now : Int) (o : SchedOrder) : ℚ :=
  ((now - o.arrivalTime : Int) : ℚ) / 60000

/-- Modelled from the spec: the wait sub-score (§4.1), the elapsed time against
the 8-minute deadline, clamped to [0,1]. -/
def waitScore (now : Int) (o : SchedOrder) : ℚ := min 1 (max 0 (elapsedMinutes now o / 8))

/-- Modelled from the spec: the complexity sub-score (§4.1). -/
def complexityScore (o : SchedOrder) : ℚ := min 1 ((o.prepTimeMinutes : ℚ) / 8)

/-- Modelled from the spec: the loyalty sub-score (§4.1). -/
def loyaltyScore (cfg : ScoreConfig) (o : SchedOrder) : ℚ :=
  min 1 ((o.loyaltyTier : ℚ) / 5 + (if o.isRegularCustomer then cfg.regularBonus else 0))

/-- Modelled from the spec: the urgency step of §4.1, 0 below 6 minutes,
linear from 6 to 8, 1 beyond. -/
def urgencyStep (elapsed : ℚ) : ℚ :=
  if elapsed < 6 then 0 else if elapsed ≤ 8 then (elapsed - 6) / 2 else 1

/-- Modelled from the spec: the urgency sub-score (§4.1) with the boost per
skip, capped at 1. -/
def urgencyScore (cfg : ScoreConfig) (now : Int) (o : SchedOrder) : ℚ :=
  min 1 (urgencyStep (elapsedMinutes now o) + cfg.skipBoost * (o.skipCount : ℚ))

/-- Modelled from the spec: the priority of an order at time `now` (§4.1). -/
def score (cfg : ScoreConfig) (now : Int) (o : SchedOrder) : ℚ :=
  scaledPriority (waitScore now o) (complexityScore o) (loyaltyScore cfg o)
    (urgencyScore cfg now o)

/-- Modelled from the spec: tick step 1 (§4.3), the priority of every QUEUED
order recomputed. -/
def rescore (cfg : ScoreConfig) (now : Int) (st : Scheduler) : Scheduler :=
  { st with orders := st.orders.map (fun o =>
      if o.status = OrderStatus.QUEUED then { o with priority := score cfg now o } else o) }

/-- Modelled from the spec: the ranking of tick step 2 (§4.3), priority
descending, then earlier arrival, then lower id. -/
def ranksBefore (a b : SchedOrder) : Bool :=
  decide (a.priority > b.priority) ||
  (decide (a.priority = b.priority) &&
    (decide (a.arrivalTime < b.arrivalTime) ||
      (decide (a.arrivalTime = b.arrivalTime) && decide (a.id ≤ b.id))))

/-- Modelled from the spec: the ids of the QUEUED orders in ranked order. -/
def rankedQueue (st : Scheduler) : List Nat :=
  ((st.orders.filter (fun o => decide (o.status = OrderStatus.QUEUED))).insertionSort
    (fun a b => ranksBefore a b = true)).map (fun o => o.id)

/-- Modelled from the spec: the IN_PROGRESS orders assigned to a worker. -/
def inProgressOf (st : Scheduler) (w : Worker) : List SchedOrder :=
  st.orders.filter (fun o =>
    decide (o.status = OrderStatus.IN_PROGRESS) && decide (o.id ∈ w.assignedOrders))

/-- Modelled from the spec: a worker's totalPendingMinutes (§3), the prep
minutes of the orders assigned to it and still in progress. -/
def totalPendingMinutes (st : Scheduler) (w : Worker) : Nat :=
  ((inProgressOf st w).map (fun o => o.prepTimeMinutes)).sum

/-- Modelled from the spec: the mean totalPendingMinutes over the pool. -/
def meanPendingMinutes (st : Scheduler) : ℚ :=
  (((st.workers.map (totalPendingMinutes st)).sum : Nat) : ℚ) / (st.workers.length : ℚ)

/-- Modelled from the spec: a worker's workloadRatio (§3), 1 when the mean is
zero. -/
def workerLoadRatio (st : Scheduler) (w : Worker) : ℚ :=
  if meanPendingMinutes st = 0 then 1
  else (totalPendingMinutes st w : ℚ) / meanPendingMinutes st

/-- Modelled from the spec: the available worker that is offered the next
order (§4.3 step 3), the least loaded one. -/
def leastLoadedAvailable (st : Scheduler) : Option Worker :=
  List.argmin (workerLoadRatio st) (st.workers.filter (fun w => w.available))

/-- Modelled from the spec: one assignment (§4.3 step 3). The order becomes
IN_PROGRESS with the worker recorded on it; the worker gets the order appended
to its history and is no longer available. -/
def assign (st : Scheduler) (workerId orderId : Nat) : Scheduler :=
  { st with
    orders := st.orders.map (fun o =>
      if o.id = orderId then
        { o with status := OrderStatus.IN_PROGRESS, assignedWorkerId := some workerId }
      else o)
    workers := st.workers.map (fun w =>
      if w.id = workerId then
        { w with available := false, assignedOrders := w.assignedOrders ++ [orderId] }
      else w) }

/-- Modelled from the spec: the assignment loop of §4.3 step 3 over the ranked
list: while an available worker remains, the least loaded one takes the top
remaining order. -/
def dispatch (st : Scheduler) : List Nat → Scheduler
  | [] => st
  | orderId :: rest =>
    match leastLoadedAvailable st with
    | none => st
    | some w => dispatch (assign st w.id orderId) rest

/-- Modelled from the spec: the skip count of every order left QUEUED by the
tick goes up by one (§4.2). -/
def bumpSkips (st : Scheduler) : Scheduler :=
  { st with orders := st.orders.map (fun o =>
      if o.status = OrderStatus.QUEUED then { o with skipCount := o.skipCount + 1 } else o) }

/-- Modelled from the spec: a FAIRNESS alert for every worker whose
workloadRatio exceeds 1.2 after the assignments (§4.3 step 4). -/
def fairnessAlerts (st : Scheduler) : Scheduler :=
  { st with
    alerts := st.alerts ++ List.map (fun w => "FAIRNESS: " ++ w.name ++ " is overloaded")
      (st.workers.filter (fun w => decide (workerLoadRatio st w > 1.2))) }

/-- Modelled from the spec: one scheduling tick (§4.3 steps 1 to 4). -/
def tick (cfg : ScoreConfig) (now : Int) (st : Scheduler) : Scheduler :=
  fairnessAlerts (bumpSkips (dispatch (rescore cfg now st) (rankedQueue (rescore cfg now st))))

/-- Modelled from the spec: the error taxonomy of §7. -/
inductive SchedError where
  | validation
  | notFound
  | stateConflict
  deriving DecidableEq

/-- Modelled from the spec: the field bounds of an Order (§3), prep time in
{2,3,4,5,6,8} and loyalty tier in 1–5. -/
def validOrderFields (prepTimeMinutes loyaltyTier : Nat) : Bool :=
  decide (prepTimeMinutes ∈ [2, 3, 4, 5, 6, 8]) &&
    (decide (1 ≤ loyaltyTier) && decide (loyaltyTier ≤ 5))

/-- Modelled from the spec: order submission (§4.3, §6, §7). A malformed order
is rejected and nothing changes; otherwise a QUEUED order with the next id is
added and a tick runs. -/
def submitOrder (cfg : ScoreConfig) (now : Int) (drinkName : String)
    (prepTimeMinutes loyaltyTier : Nat) (isRegularCustomer : Bool) (st : Scheduler) :
    Except SchedError Scheduler :=
  if validOrderFields prepTimeMinutes loyaltyTier then
    Except.ok (tick cfg now
      { st with
        orders := st.orders ++
          [{ id := st.nextOrderId, drinkName := drinkName, prepTimeMinutes := prepTimeMinutes,
             loyaltyTier := loyaltyTier, isRegularCustomer := isRegularCustomer,
             arrivalTime := now, status := OrderStatus.QUEUED, skipCount := 0, priority := 0,
             assignedWorkerId := none }]
        nextOrderId := st.nextOrderId + 1 })
  else Except.error SchedError.validation

/-- Modelled from the spec: the state change of a worker-completion signal
(§4.3 step 5): the worker's IN_PROGRESS order becomes COMPLETED and the worker
available. -/
def release (st : Scheduler) (w : Worker) : Scheduler :=
  { st with
    orders := st.orders.map (fun o =>
      if o.status = OrderStatus.IN_PROGRESS ∧ o.id ∈ w.assignedOrders then
        { o with status := OrderStatus.COMPLETED }
      else o)
    workers := st.workers.map (fun v =>
      if v.id = w.id then { v with available := true } else v) }

/-- Modelled from the spec: the worker-completion signal (§4.3 step 5, §7):
an unknown worker and a worker with no IN_PROGRESS order are errors that change
nothing; otherwise the order is completed and a tick runs. -/
def completeOrder (cfg : ScoreConfig) (now : Int) (workerId : Nat) (st : Scheduler) :
    Except SchedError Scheduler :=
  match st.workers.find? (fun w => w.id == workerId) with
  | none => Except.error SchedError.notFound
  | some w =>
    if (inProgressOf st w).isEmpty then Except.error SchedError.stateConflict
    else Except.ok (tick cfg now (release st w))

/-- Modelled from the spec: the orders the Timeout Monitor expires (§4.4),
those waiting 8 minutes or more in state QUEUED or IN_PROGRESS. -/
def expired (now : Int) (o : SchedOrder) : Bool :=
  decide (elapsedMinutes now o ≥ 8) &&
    (decide (o.status = OrderStatus.QUEUED) || decide (o.status = OrderStatus.IN_PROGRESS))

/-- Modelled from the spec: the state change of a Timeout Monitor sweep
(§4.4), before the tick it may trigger. -/
def expireOrders (now : Int) (st : Scheduler) : Scheduler :=
  { orders := st.orders.map (fun o =>
      if expired now o then { o with status := OrderStatus.TIMED_OUT } else o)
    workers := st.workers.map (fun w =>
      if (inProgressOf st w).any (expired now) then { w with available := true } else w)
    nextOrderId := st.nextOrderId
    alerts := st.alerts ++ List.map
      (fun o => "CRITICAL: order #" ++ toString o.id ++ " (" ++ o.drinkName ++ ") timed out")
      (st.orders.filter (expired now))
    timeoutCount := st.timeoutCount + (st.orders.filter (expired now)).length }

/-- Modelled from the spec: a Timeout Monitor sweep (§4.4); a tick follows
when an IN_PROGRESS order was expired. -/
def timeoutSweep (cfg : ScoreConfig) (now : Int) (st : Scheduler) : Scheduler :=
  if st.orders.any (fun o => expired now o && decide (o.status = OrderStatus.IN_PROGRESS)) then
    tick cfg now (expireOrders now st)
  else expireOrders now st

/-- Modelled from the spec: the triggers of the engine (§5): a submission, a
tick on its fixed interval, a completion signal, a timeout sweep, each with the
clock reading at which it happens. -/
inductive SchedEvent where
  | submit (now : Int) (drinkName : String) (prepTimeMinutes loyaltyTier : Nat)
      (isRegularCustomer : Bool)
  | tick (now : Int)
  | complete (now : Int) (workerId : Nat)
  | timeoutSweep (now : Int)

/-- Modelled from the spec: one trigger applied to the scheduler; an operation
that reports an error leaves the state as it was (§7). -/
def applyEvent (cfg : ScoreConfig) (st : Scheduler) : SchedEvent → Scheduler
  | .submit now drinkName prepTimeMinutes loyaltyTier isRegularCustomer =>
    match submitOrder cfg now drinkName prepTimeMinutes loyaltyTier isRegularCustomer st with
    | Except.ok st2 => st2
    | Except.error _ => st
  | .tick now => tick cfg now st
  | .complete now workerId =>
    match completeOrder cfg now workerId st with
    | Except.ok st2 => st2
    | Except.error _ => st
  | .timeoutSweep now => timeoutSweep cfg now st

/-- Modelled from the spec: the state reached from the initial scheduler by a
sequence of triggers. -/
def runScheduler (cfg : ScoreConfig) (names : List String) (events : List SchedEvent) :
    Scheduler :=
  events.foldl (applyEvent cfg) (Scheduler.init names)

/-- Modelled from the spec: the order with a given id. -/
def findOrder (st : Scheduler) (orderId : Nat) : Option SchedOrder :=
  st.orders.find? (fun o => o.id == orderId)

/-- Modelled from the spec: the record `GET /baristas` reports for a worker
(§6): its history as order entries, in history order. -/
def baristaView (st : Scheduler) (w : Worker) : Barista :=
  { id := w.id
    name := w.name
    available := w.available
    assignedOrders := some (w.assignedOrders.filterMap (fun i =>
      (findOrder st i).map (fun o =>
        { id := o.id, drinkName := o.drinkName, status := o.status.name })))
    totalPendingMinutes := some (totalPendingMinutes st w : ℚ) }

/-- The facts about a scheduler state that every operation of the engine
keeps: order ids and worker ids are distinct, ids in use are below the next
id, a QUEUED order is in no history, an available worker has no IN_PROGRESS
order in its history, the IN_PROGRESS orders in one history share their id,
and no history repeats an id. -/
structure SchedInv (st : Scheduler) : Prop where
  orderIds : (st.orders.map (fun o => o.id)).Nodup
  orderIdsBelow : ∀ o ∈ st.orders, o.id < st.nextOrderId
  workerIds : (st.workers.map (fun w => w.id)).Nodup
  historyBelow : ∀ w ∈ st.workers, ∀ i ∈ w.assignedOrders, i < st.nextOrderId
  queuedUnassigned : ∀ o ∈ st.orders, o.status = OrderStatus.QUEUED →
    ∀ w ∈ st.workers, o.id ∉ w.assignedOrders
  availableIdle : ∀ w ∈ st.workers, w.available = true →
    ∀ o ∈ st.orders, o.status = OrderStatus.IN_PROGRESS → o.id ∉ w.assignedOrders
  oneInProgress : ∀ w ∈ st.workers, ∀ o1 ∈ st.orders, ∀ o2 ∈ st.orders,
    o1.status = OrderStatus.IN_PROGRESS → o2.status = OrderStatus.IN_PROGRESS →
    o1.id ∈ w.assignedOrders → o2.id ∈ w.assignedOrders → o1.id = o2.id
  historyNodup : ∀ w ∈ st.workers, w.assignedOrders.Nodup

/-! ## Login, signup and the session -/

/-- The entries of `localStorage`, each key listed once. -/
abbrev Storage := List (String × String)

/-- The call `localStorage.getItem(key)`; `none` is `null`. -/
def Storage.getItem (s : Storage) (key : String) : Option String := s.lookup key

/-- The call `localStorage.setItem(key, value)`. -/
def Storage.setItem (s : Storage) (key value : String) : Storage :=
  (key, value) :: s.filter (fun kv => kv.1 != key)

/-- The call `localStorage.removeItem(key)`. -/
def Storage.removeItem (s : Storage) (key : String) : Storage :=
  s.filter (fun kv => kv.1 != key)

/-- The text `setItem` stores for an optional string: `undefined` is stored as
the text 'undefined'. -/
def storedText (v : Option String) : String := v.getD "undefined"

/-- The parsed body `data` of a login or signup response: the success flag as
sent, and the optional strings token, username and message. -/
structure AuthResponse where
  success : JsVal
  token : Option String
  username : Option String
  message : Option String
  deriving DecidableEq

/-- The expression `data.message || fallback`: the message when it is a
non-empty string. -/
def messageOr (message : Option String) (fallback : String) : String :=
  match message with
  | some m => if m ≠ "" then m else fallback
  | none => fallback

/-- The number `s.length`: UTF-16 code units, two for a character outside the
basic plane. -/
def jsLength (s : String) : Nat :=
  (s.data.map (fun c => if c.toNat < 0x10000 then 1 else 2)).sum

/-- What an auth handler leaves behind: the page state, the requests sent, the
`setItem` calls in program order, `localStorage` after them, and the argument
of the `onLogin` or `onSignup` callback when it is called. -/
structure AuthOutcome (σ : Type) where
  form : σ
  sent : List Request
  stored : List (String × String)
  storage : Storage
  callback : Option AuthResponse

/-- The state of `LoginPage`. -/
structure LoginForm where
  usernameOrEmail : String
  password : String
  error : String
  loading : Bool
  deriving DecidableEq

/-- The request of `LoginPage`'s `handleSubmit`. -/
def loginRequest (f : LoginForm) : Request :=
  { method := "POST"
    url := API_BASE ++ "/auth/login"
    headers := [("Content-Type", "application/json")]
    body := some (jsonStringify
      [("usernameOrEmail", JsVal.str f.usernameOrEmail), ("password", JsVal.str f.password)]) }

/-- The handler `handleSubmit` of `LoginPage`. `reply` is the parsed response,
or `none` when `fetch` or `res.json()` rejects (the `catch` branch). The state
is the one after the final `setLoading(false)`. -/
def LoginPage.handleSubmit (f : LoginForm) (storage : Storage) (reply : Option AuthResponse) :
    AuthOutcome LoginForm :=
  match reply with
  | none =>
    { form := { f with error := "Connection error. Please check if backend is running.",
                       loading := false }
      sent := [loginRequest f], stored := [], storage := storage, callback := none }
  | some data =>
    if truthy data.success then
      { form := { f with error := "", loading := false }
        sent := [loginRequest f]
        stored := [("token", storedText data.token), ("username", storedText data.username)]
        storage := (storage.setItem "token" (storedText data.token)).setItem "username"
          (storedText data.username)
        callback := some data }
    else
      { form := { f with error := messageOr data.message "Login failed", loading := false }
        sent := [loginRequest f], stored := [], storage := storage, callback := none }

/-- The state of `SignupPage`. -/
structure SignupForm where
  username : String
  email : String
  password : String
  confirmPassword : String
  error : String
  loading : Bool
  deriving DecidableEq

/-- The request of `SignupPage`'s `handleSubmit`. -/
def signupRequest (f : SignupForm) : Request :=
  { method := "POST"
    url := API_BASE ++ "/auth/signup"
    headers := [("Content-Type", "application/json")]
    body := some (jsonStringify
      [("username", JsVal.str f.username), ("email", JsVal.str f.email),
       ("password", JsVal.str f.password)]) }

/-- The handler `handleSubmit` of `SignupPage`; `reply` as for `LoginPage`. The
two checks return before anything is sent. -/
def SignupPage.handleSubmit (f : SignupForm) (storage : Storage)
    (reply : Option AuthResponse) : AuthOutcome SignupForm :=
  if f.password ≠ f.confirmPassword then
    { form := { f with error := "Passwords do not match", loading := false }
      sent := [], stored := [], storage := storage, callback := none }
  else if jsLength f.password < 6 then
    { form := { f with error := "Password must be at least 6 characters", loading := false }
      sent := [], stored := [], storage := storage, callback := none }
  else
    match reply with
    | none =>
      { form := { f with error := "Connection error. Please check if backend is running.",
                         loading := false }
        sent := [signupRequest f], stored := [], storage := storage, callback := none }
    | some data =>
      if truthy data.success then
        { form := { f with error := "", loading := false }
          sent := [signupRequest f]
          stored := [("token", storedText data.token), ("username", storedText data.username)]
          storage := (storage.setItem "token" (storedText data.token)).setItem "username"
            (storedText data.username)
          callback := some data }
      else
        { form := { f with error := messageOr data.message "Signup failed", loading := false }
          sent := [signupRequest f], stored := [], storage := storage, callback := none }

/-- The object `{ username, token }` kept in the `user` state of `App`. -/
structure Session where
  username : Option String
  token : Option String
  deriving DecidableEq

/-- The state of `App`; `user` is `none` for `null`. -/
structure AppState where
  user : Option Session
  page : String
  currentView : String
  deriving DecidableEq

/-- The `useState` initial values of `App`: `null`, `'login'`, `'dashboard'`. -/
def AppState.initial : AppState := { user := none, page := "login", currentView := "dashboard" }

/-- The two parts of `window.location` that `App` reads. -/
structure Location where
  pathname : String
  search : String
  deriving DecidableEq

/-- The test for an OAuth callback URL, as in the render of `App`. -/
def isOAuthCallback (loc : Location) : Bool :=
  includes loc.search "token=" || decide (loc.pathname = "/oauth-callback")

/-- The session-restore effect of `App`, run once on mount. A stored string is
truthy when it is not empty. -/
def restoreSession (loc : Location) (storage : Storage) (st : AppState) : AppState :=
  if loc.pathname = "/oauth-callback" ∨ includes loc.search "token=" = true then st
  else
    match storage.getItem "token", storage.getItem "username" with
    | some token, some username =>
      if token ≠ "" ∧ username ≠ "" then
        { st with user := some { username := some username, token := some token } }
      else st
    | _, _ => st

/-- The state of `App` after a mount: the initial values, then the effect. -/
def mountApp (loc : Location) (storage : Storage) : AppState :=
  restoreSession loc storage AppState.initial

/-- The handlers `handleLogin`, `handleSignup` and `handleOAuthSuccess`. -/
def handleLogin (st : AppState) (data : AuthResponse) : AppState :=
  { st with user := some { username := data.username, token := data.token } }

/-- The handler `handleLogout`: `localStorage` and the state after it. -/
def handleLogout (storage : Storage) (_st : AppState) : Storage × AppState :=
  ((storage.removeItem "token").removeItem "username",
   { user := none, page := "login", currentView := "dashboard" })

/-- The component `App` returns. -/
inductive View where
  | oauthCallback
  | statisticsPage
  | dashboard
  | signupPage
  | loginPage
  deriving DecidableEq

/-- The view selection at the end of `App`. -/
def renderApp (loc : Location) (st : AppState) : View :=
  if isOAuthCallback loc then View.oauthCallback
  else
    match st.user with
    | some _ => if st.currentView = "statistics" then View.statisticsPage else View.dashboard
    | none => if st.page = "signup" then View.signupPage else View.loginPage

/-! ## Polling

The timers of the browser, as far as the polling effect of `Dashboard` uses
them. Time is counted in whole milliseconds and advances one millisecond at a
time; an interval timer runs its callback at the step at which it is due, which
is the ideal behaviour of `setInterval` (a browser may run a callback late, but
never early and never after `clearInterval`). The callback of every timer is
`fetchData`, which is recorded with the username it closes over. -/

/-- An active interval timer: its id, its period, the time at which it is next
due and the username of its `fetchData` callback. -/
structure IntervalTimer where
  id : Nat
  period : Nat
  due : Nat
  username : String
  deriving DecidableEq

/-- The clock, the active timers, the next timer id and the calls of
`fetchData` so far, each with its time and username. -/
structure Browser where
  now : Nat
  timers : List IntervalTimer
  nextTimerId : Nat
  fetchCalls : List (Nat × String)
  deriving DecidableEq

/-- A call of `fetchData` at the current time. -/
def callFetchData (b : Browser) (username : String) : Browser :=
  { b with fetchCalls := b.fetchCalls ++ [(b.now, username)] }

/-- The call `setInterval(fetchData, period)`: the browser with the new timer,
and the timer's id. -/
def setInterval (b : Browser) (period : Nat) (username : String) : Browser × Nat :=
  ({ b with
     timers := b.timers ++
       [{ id := b.nextTimerId, period := period, due := b.now + period, username := username }]
     nextTimerId := b.nextTimerId + 1 },
   b.nextTimerId)

/-- The call `clearInterval(id)`. -/
def clearInterval (b : Browser) (id : Nat) : Browser :=
  { b with timers := b.timers.filter (fun t => t.id != id) }

/-- The body of the polling effect: `fetchData()` at once, then
`setInterval(fetchData, 2000)`. The id returned is the one the cleanup closes
over. -/
def pollingEffect (b : Browser) (username : String) : Browser × Nat :=
  setInterval (callFetchData b username) 2000 username

/-- The cleanup of the polling effect, `clearInterval(interval)`, run on
unmount and before the effect runs again for another username. -/
def pollingCleanup (b : Browser) (interval : Nat) : Browser := clearInterval b interval

/-- One millisecond passes: every timer that is due runs its callback and is
due again one period later. -/
def advance1 (b : Browser) : Browser :=
  { now := b.now + 1
    timers := b.timers.map (fun t =>
      if t.due ≤ b.now + 1 then { t with due := b.now + 1 + t.period } else t)
    nextTimerId := b.nextTimerId
    fetchCalls := b.fetchCalls ++
      List.map (fun t => (b.now + 1, t.username))
        (b.timers.filter (fun t => decide (t.due ≤ b.now + 1))) }

/-- The browser after `ms` more milliseconds. -/
def advance : Nat → Browser → Browser
  | 0, b => b
  | ms + 1, b => advance1 (advance ms b)

/-- The four URLs `fetchData` requests, `encode` standing for
`encodeURIComponent`: the queue, the baristas, the stats and the alerts. -/
def fetchDataUrls (encode : String → String) (username : String) : List String :=
  [API_BASE ++ "/orders?username=" ++ encode username,
   API_BASE ++ "/baristas",
   API_BASE ++ "/stats?username=" ++ encode username,
   API_BASE ++ "/alerts"]

/-- A browser at time `now` in which no timer is active and no fetch was made. -/
def Browser.start (now : Nat) : Browser :=
  { now := now, timers := [], nextTimerId := 0, fetchCalls := [] }

/-- The browser after `Dashboard` was mounted at time `t0` for `username` and
stayed mounted for `ms` milliseconds. -/
def mountedFor (t0 : Nat) (username : String) (ms : Nat) : Browser :=
  advance ms (pollingEffect (Browser.start t0) username).1

/-- The browser right after the cleanup of that effect ran, `ms` milliseconds
after the mount. -/
def cleanedUpAfter (t0 : Nat) (username : String) (ms : Nat) : Browser :=
  pollingCleanup (mountedFor t0 username ms) (pollingEffect (Browser.start t0) username).2

/-! # Properties -/

/-! ## Elapsed wait and the card highlight -/

theorem waitMinutes_ge_iff (now a : Int) (m : Int) :
    (m : ℚ) ≤ waitMinutes now a ↔ m * 60000 ≤ now - a := by
  unfold waitMinutes
  rw [le_div_iff₀ (by norm_num : (0 : ℚ) < 60000)]
  exact_mod_cast Iff.rfl

/-- C1: for every current time and every arrival time, `getOrderClass` is
'urgent' exactly when the elapsed wait in minutes is at least 8 (480000 ms),
'warning' exactly when it is at least 6 (360000 ms) and below 8, and '' exactly
when it is below 6; both boundaries are inclusive. -/
theorem getOrderClass_thresholds (now a : Int) :
    (getOrderClass now (some a) = "urgent" ↔ 8 ≤ waitMinutes now a) ∧
    (getOrderClass now (some a) = "warning" ↔
      6 ≤ waitMinutes now a ∧ waitMinutes now a < 8) ∧
    (getOrderClass now (some a) = "" ↔ waitMinutes now a < 6) ∧
    (8 ≤ waitMinutes now a ↔ 480000 ≤ now - a) ∧
    (6 ≤ waitMinutes now a ↔ 360000 ≤ now - a) := by
  have h8 := waitMinutes_ge_iff now a 8
  have h6 := waitMinutes_ge_iff now a 6
  norm_num at h8 h6
  refine ⟨?_, ?_, ?_, h8, h6⟩
  all_goals
    by_cases h1 : 8 ≤ waitMinutes now a
    · have h2 : 6 ≤ waitMinutes now a := le_trans (by norm_num) h1
      simp [getOrderClass, h1, h2, not_lt.mpr h1, not_lt.mpr h2]
    · by_cases h2 : 6 ≤ waitMinutes now a
      · simp [getOrderClass, h1, h2, not_lt.mpr h2, lt_of_not_le h1]
      · simp [getOrderClass, h1, h2, lt_of_not_le h2]

/-! ## The new-order form -/

theorem dropWhile_all_iff {α : Type} (p : α → Bool) (l : List α) :
    (∀ x ∈ l.dropWhile p, p x = true) ↔ ∀ x ∈ l, p x = true := by
  induction l with
  | nil => simp
  | cons a t ih =>
    by_cases ha : p a = true
    · simp [List.dropWhile_cons, ha, ih]
    · simp [List.dropWhile_cons, ha]

/-- The trimmed string is empty exactly for a string of white space only. -/
theorem jsTrim_eq_empty_iff (s : String) :
    jsTrim s = "" ↔ s.data.all isJsWhiteSpace = true := by
  have h0 : jsTrim s = "" ↔
      ((s.data.dropWhile isJsWhiteSpace).reverse.dropWhile isJsWhiteSpace).reverse = [] := by
    unfold jsTrim
    constructor
    · intro h
      exact congrArg String.data h
    · intro h
      rw [h]
  rw [h0, List.reverse_eq_nil_iff, List.dropWhile_eq_nil_iff, List.all_eq_true]
  simp only [List.mem_reverse]
  exact dropWhile_all_iff isJsWhiteSpace s.data

theorem handleSubmit_effects (user : User) (f : Form) (fetchOk : Bool)
    (h : jsTrim f.drinkName ≠ "") :
    (handleSubmit user f fetchOk).2 =
      [Effect.fetch (orderRequest user f),
       if fetchOk then Effect.fetchData else Effect.consoleError "Failed to create order:"] := by
  unfold handleSubmit
  cases fetchOk <;> simp [h]

/-- C2: for every form state whose drink name is not blank, `handleSubmit`
sends one request, a POST to `/orders`, whose JSON body has exactly the five
keys drinkName, prepTimeMinutes, loyaltyTier, isRegularCustomer and username,
holding the form's drinkName, prepTime, loyaltyTier and isRegular and the
logged-in user's username. -/
theorem handleSubmit_request_body (user : User) (f : Form) (fetchOk : Bool)
    (h : jsTrim f.drinkName ≠ "") :
    ∃ r : Request,
      (handleSubmit user f fetchOk).2.head? = some (Effect.fetch r) ∧
      (∀ r2, Effect.fetch r2 ∈ (handleSubmit user f fetchOk).2 → r2 = r) ∧
      r.method = "POST" ∧ r.url = "http://localhost:8080/api/orders" ∧
      r.body.map (List.map Prod.fst) =
        some ["drinkName", "prepTimeMinutes", "loyaltyTier", "isRegularCustomer", "username"] ∧
      r.body = some
        [("drinkName", JsVal.str f.drinkName),
         ("prepTimeMinutes", JsVal.num f.prepTime),
         ("loyaltyTier", JsVal.num f.loyaltyTier),
         ("isRegularCustomer", JsVal.bool f.isRegular),
         ("username", JsVal.str user.username)] := by
  refine ⟨orderRequest user f, ?_, ?_, rfl, rfl, ?_, ?_⟩
  · rw [handleSubmit_effects user f fetchOk h]
    rfl
  · intro r2 hr2
    rw [handleSubmit_effects user f fetchOk h] at hr2
    cases fetchOk <;> simpa using hr2
  · simp [orderRequest, jsonStringify]
  · simp [orderRequest, jsonStringify]

/-- The body sent for the form (' Caramel Latte', 4, 2, regular) of user asha. -/
theorem handleSubmit_request_body_witness :
    jsTrim " Caramel Latte" ≠ "" ∧
    ∃ r : Request,
      (handleSubmit ⟨"asha", "tok"⟩ ⟨" Caramel Latte", 4, 2, true⟩ true).2.head?
        = some (Effect.fetch r) ∧
      r.body = some
        [("drinkName", JsVal.str " Caramel Latte"),
         ("prepTimeMinutes", JsVal.num 4),
         ("loyaltyTier", JsVal.num 2),
         ("isRegularCustomer", JsVal.bool true),
         ("username", JsVal.str "asha")] := by
  have hb : jsTrim " Caramel Latte" ≠ "" := by decide
  obtain ⟨r, h1, _, _, _, _, h2⟩ :=
    handleSubmit_request_body ⟨"asha", "tok"⟩ ⟨" Caramel Latte", 4, 2, true⟩ true hb
  exact ⟨hb, r, h1, by simpa using h2⟩

theorem handleSubmit_keeps_selects (user : User) (f : Form) (fetchOk : Bool) :
    (handleSubmit user f fetchOk).1.prepTime = f.prepTime ∧
    (handleSubmit user f fetchOk).1.loyaltyTier = f.loyaltyTier := by
  unfold handleSubmit
  split_ifs <;> exact ⟨rfl, rfl⟩

theorem formStep_bounded (user : User) (f : Form) (e : FormEvent)
    (hp : f.prepTime ∈ prepTimeOptions) (ht : f.loyaltyTier ∈ loyaltyTierOptions) :
    (formStep user f e).prepTime ∈ prepTimeOptions ∧
    (formStep user f e).loyaltyTier ∈ loyaltyTierOptions := by
  cases e with
  | typeDrinkName value => exact ⟨hp, ht⟩
  | selectPrepTime option => exact ⟨List.get_mem _ _ _, ht⟩
  | selectLoyaltyTier option => exact ⟨hp, List.get_mem _ _ _⟩
  | setRegular checked => exact ⟨hp, ht⟩
  | submit fetchOk =>
    obtain ⟨h1, h2⟩ := handleSubmit_keeps_selects user f fetchOk
    simp only [formStep, h1, h2]
    exact ⟨hp, ht⟩

theorem foldl_formStep_bounded (user : User) (events : List FormEvent) (f : Form)
    (hp : f.prepTime ∈ prepTimeOptions) (ht : f.loyaltyTier ∈ loyaltyTierOptions) :
    (events.foldl (formStep user) f).prepTime ∈ prepTimeOptions ∧
    (events.foldl (formStep user) f).loyaltyTier ∈ loyaltyTierOptions := by
  induction events generalizing f with
  | nil => exact ⟨hp, ht⟩
  | cons e es ih =>
    obtain ⟨h1, h2⟩ := formStep_bounded user f e hp ht
    exact ih (formStep user f e) h1 h2

/-- C3: from the initial form state (prepTime 3, loyaltyTier 1), after any
sequence of form events (typing, selecting an offered option, ticking the
checkbox, submitting), prepTime is in {2,3,4,5,6,8} and loyaltyTier is in
{1,2,3,4,5}; hence every request `handleSubmit` then sends carries a
prepTimeMinutes and a loyaltyTier from these sets. -/
theorem form_selects_bounded (user : User) (events : List FormEvent) :
    (formAfter user events).prepTime ∈ [2, 3, 4, 5, 6, 8] ∧
    (formAfter user events).loyaltyTier ∈ [1, 2, 3, 4, 5] ∧
    ∀ (fetchOk : Bool) (r : Request),
      Effect.fetch r ∈ (handleSubmit user (formAfter user events) fetchOk).2 →
      ∃ p : Nat, p ∈ [2, 3, 4, 5, 6, 8] ∧ ∃ t : Nat, t ∈ [1, 2, 3, 4, 5] ∧
        r.body.map (fun b => getProp b "prepTimeMinutes") = some (JsVal.num p) ∧
        r.body.map (fun b => getProp b "loyaltyTier") = some (JsVal.num t) := by
  obtain ⟨hp, ht⟩ := foldl_formStep_bounded user events Form.initial
    (by decide) (by decide)
  refine ⟨hp, ht, ?_⟩
  intro fetchOk r hr
  refine ⟨(formAfter user events).prepTime, hp, (formAfter user events).loyaltyTier, ht, ?_⟩
  have hr2 : r = orderRequest user (formAfter user events) := by
    unfold handleSubmit at hr
    split_ifs at hr <;> simp at hr <;> exact hr
  subst hr2
  constructor <;> simp [orderRequest, jsonStringify, getProp, List.lookup]

/-- C4: `handleSubmit` sends the POST `/orders` request (and any request at
all) if and only if the trimmed drink name is non-empty; the trimmed name is
empty exactly for an empty or white-space-only name, and exactly then
`handleSubmit` sends nothing and returns the form state unchanged. -/
theorem handleSubmit_sends_iff_not_blank (user : User) (f : Form) (fetchOk : Bool) :
    (Effect.fetch (orderRequest user f) ∈ (handleSubmit user f fetchOk).2 ↔
      jsTrim f.drinkName ≠ "") ∧
    ((∃ r, Effect.fetch r ∈ (handleSubmit user f fetchOk).2) ↔ jsTrim f.drinkName ≠ "") ∧
    (jsTrim f.drinkName = "" ↔ f.drinkName.data.all isJsWhiteSpace = true) ∧
    (jsTrim f.drinkName = "" ↔ handleSubmit user f fetchOk = (f, [])) := by
  refine ⟨?_, ?_, jsTrim_eq_empty_iff f.drinkName, ?_⟩
  · by_cases h : jsTrim f.drinkName = ""
    · simp [handleSubmit, h]
    · simp [handleSubmit_effects user f fetchOk h, h]
  · by_cases h : jsTrim f.drinkName = ""
    · simp [handleSubmit, h]
    · simp [handleSubmit_effects user f fetchOk h, h]
  · by_cases h : jsTrim f.drinkName = ""
    · simp [handleSubmit, h]
    · have := handleSubmit_effects user f fetchOk h
      constructor
      · intro h2
        exact absurd h2 h
      · intro h2
        rw [h2] at this
        simp at this

/-! ## Order cards -/

/-- The star is shown exactly when the order's `regularCustomer` property is
truthy; no other property is read for it. -/
theorem regularMarker_eq_star_iff (order : JsObj) :
    regularMarker order = "★" ↔ truthy (getProp order "regularCustomer") = true := by
  unfold regularMarker
  split_ifs with h
  · simp [h]
  · simp only [h]
    decide

/-- For a whole tier of magnitude below 2^53 the label is 'T', the tier in
decimal, then the marker. -/
theorem loyaltyLabel_of_tier (order : JsObj) (t : Int)
    (h : getProp order "loyaltyTier" = JsVal.num t) (ht : t.natAbs < 9007199254740992) :
    loyaltyLabel order = some ("T" ++ toString t ++ regularMarker order) := by
  simp [loyaltyLabel, h, jsxText, numberText, wholeNumberText, ht]

/-- C5 (evaluation of the code): an order that carries the fields of a
submitted body, with `isRegularCustomer` true, and the id the server gave it,
is labelled 'T3', without the star. -/
theorem loyaltyLabel_of_submitted_regular :
    getProp
      (("id", JsVal.num 7) :: ((orderRequest ⟨"asha", "tok"⟩ ⟨"Mocha", 5, 3, true⟩).body.getD []))
      "isRegularCustomer" = JsVal.bool true ∧
    loyaltyLabel
      (("id", JsVal.num 7) :: ((orderRequest ⟨"asha", "tok"⟩ ⟨"Mocha", 5, 3, true⟩).body.getD []))
      = some "T3" := by
  constructor
  · simp [orderRequest, jsonStringify, getProp, List.lookup]
  · simp [orderRequest, jsonStringify, getProp, List.lookup, loyaltyLabel, jsxText,
      numberText, wholeNumberText, regularMarker, truthy]
    decide

/-! ## Alerts -/

/-- The function `hasInfix` decides the contiguous-block relation on lists. -/
theorem hasInfix_iff (l p : List Char) : hasInfix l p = true ↔ p <:+: l := by
  induction l with
  | nil => simp [hasInfix, List.isPrefixOf_iff_prefix]
  | cons c cs ih =>
    simp only [hasInfix, Bool.or_eq_true, ih, List.infix_cons_iff, List.isPrefixOf_iff_prefix]

theorem hasInfix_cons_of_ne (c d : Char) (cs p : List Char) (h : d ≠ c) :
    hasInfix (c :: cs) (d :: p) = hasInfix cs (d :: p) := by
  simp [hasInfix, List.isPrefixOf, h]

theorem includes_critical_tag (msg : String) : includes ("CRITICAL" ++ msg) "CRITICAL" = true := by
  unfold includes
  rw [hasInfix_iff, String.data_append]
  exact ⟨[], msg.data, rfl⟩

theorem includes_critical_fairness (msg : String) :
    includes ("FAIRNESS" ++ msg) "CRITICAL" = includes msg "CRITICAL" := by
  unfold includes
  rw [String.data_append]
  show hasInfix ('F' :: 'A' :: 'I' :: 'R' :: 'N' :: 'E' :: 'S' :: 'S' :: msg.data)
    ('C' :: ['R', 'I', 'T', 'I', 'C', 'A', 'L']) = hasInfix msg.data _
  iterate 8 rw [hasInfix_cons_of_ne _ _ _ _ (by decide)]

theorem includes_fairness_tag (msg : String) : includes ("FAIRNESS" ++ msg) "FAIRNESS" = true := by
  unfold includes
  rw [hasInfix_iff, String.data_append]
  exact ⟨[], msg.data, rfl⟩

theorem includes_critical_warning (msg : String) :
    includes ("WARNING" ++ msg) "CRITICAL" = includes msg "CRITICAL" := by
  unfold includes
  rw [String.data_append]
  show hasInfix ('W' :: 'A' :: 'R' :: 'N' :: 'I' :: 'N' :: 'G' :: msg.data)
    ('C' :: ['R', 'I', 'T', 'I', 'C', 'A', 'L']) = hasInfix msg.data _
  iterate 7 rw [hasInfix_cons_of_ne _ _ _ _ (by decide)]

theorem includes_fairness_warning (msg : String) :
    includes ("WARNING" ++ msg) "FAIRNESS" = includes msg "FAIRNESS" := by
  unfold includes
  rw [String.data_append]
  show hasInfix ('W' :: 'A' :: 'R' :: 'N' :: 'I' :: 'N' :: 'G' :: msg.data)
    ('F' :: ['A', 'I', 'R', 'N', 'E', 'S', 'S']) = hasInfix msg.data _
  iterate 7 rw [hasInfix_cons_of_ne _ _ _ _ (by decide)]

/-- C6 (as stated, refuted): a WARNING alert about a drink whose name contains
the word CRITICAL is not styled 'warning'. -/
theorem alertStyle_warning_counterexample :
    alertStyle ("WARNING" ++ ": Order #12 (CRITICAL Mass Mocha) waiting 6 min") ≠ "warning" := by
  decide

/-- C6 (amended): the style follows the words CRITICAL and FAIRNESS wherever
they occur in the alert's text. For every message, the alert CRITICAL+message
is 'critical'; the alert FAIRNESS+message is 'critical' when the message
contains CRITICAL and 'fairness' otherwise; the alert WARNING+message is
'critical' when the message contains CRITICAL, else 'fairness' when it
contains FAIRNESS, else 'warning'. -/
theorem alertStyle_of_tagged (msg : String) :
    alertStyle ("CRITICAL" ++ msg) = "critical" ∧
    alertStyle ("FAIRNESS" ++ msg) =
      (if includes msg "CRITICAL" then "critical" else "fairness") ∧
    alertStyle ("WARNING" ++ msg) =
      (if includes msg "CRITICAL" then "critical"
       else if includes msg "FAIRNESS" then "fairness" else "warning") ∧
    (alertStyle ("FAIRNESS" ++ msg) = "fairness" ↔ includes msg "CRITICAL" = false) ∧
    (alertStyle ("WARNING" ++ msg) = "warning" ↔
      includes msg "CRITICAL" = false ∧ includes msg "FAIRNESS" = false) := by
  have h1 : alertStyle ("CRITICAL" ++ msg) = "critical" := by
    simp [alertStyle, includes_critical_tag]
  have h2 : alertStyle ("FAIRNESS" ++ msg) =
      (if includes msg "CRITICAL" then "critical" else "fairness") := by
    simp [alertStyle, includes_critical_fairness, includes_fairness_tag]
  have h3 : alertStyle ("WARNING" ++ msg) =
      (if includes msg "CRITICAL" then "critical"
       else if includes msg "FAIRNESS" then "fairness" else "warning") := by
    simp [alertStyle, includes_critical_warning, includes_fairness_warning]
  refine ⟨h1, h2, h3, ?_, ?_⟩
  · rw [h2]
    cases includes msg "CRITICAL" <;> simp
  · rw [h3]
    cases includes msg "CRITICAL" <;> cases includes msg "FAIRNESS" <;> simp

/-- C7: for every alert list of length n, the displayed list has length
min(n, 5), its i-th item is the log entry at index n-1-i (the last five
entries, newest first), and the alert panel is rendered iff n > 0. -/
theorem displayedAlerts_suffix (alerts : List String) :
    (displayedAlerts alerts).length = min alerts.length 5 ∧
    (∀ i, i < min alerts.length 5 →
      ∃ a, (displayedAlerts alerts)[i]? = some a ∧ alerts[alerts.length - 1 - i]? = some a) ∧
    (alertsPanelRendered alerts = true ↔ alerts.length > 0) := by
  have hlen : (alerts.drop (alerts.length - 5)).length = min alerts.length 5 := by
    rw [List.length_drop]
    omega
  refine ⟨?_, ?_, ?_⟩
  · simp only [displayedAlerts, List.length_reverse, hlen]
  · intro i hi
    have hi2 : alerts.length - 1 - i < alerts.length := by omega
    refine ⟨alerts[alerts.length - 1 - i], ?_, List.getElem?_eq_getElem hi2⟩
    unfold displayedAlerts
    rw [List.getElem?_reverse (by rw [hlen]; exact hi), hlen, List.getElem?_drop]
    have : alerts.length - 5 + (min alerts.length 5 - 1 - i) = alerts.length - 1 - i := by
      omega
    rw [this]
    exact List.getElem?_eq_getElem hi2
  · simp [alertsPanelRendered]

/-! ## Barista cards -/

/-- C8 (evaluation of the code): Bob has no pending work while Alice is
loaded, and the ratio reported for him is 0. The card does not use that ratio:
`0 || 1` is 1, so Bob is shown as '1x' in the neutral colour, where the
reported 0 would be shown in the teal of an underloaded worker. -/
theorem workloadRatio_of_reported_zero :
    reportedRatio ⟨some [("Alice", ⟨some 2⟩), ("Bob", ⟨some 0⟩)]⟩
        ⟨2, "Bob", true, some [], some 0⟩ = some 0 ∧
    workloadRatio ⟨some [("Alice", ⟨some 2⟩), ("Bob", ⟨some 0⟩)]⟩
        ⟨2, "Bob", true, some [], some 0⟩ = 1 ∧
    ratioColor (workloadRatio ⟨some [("Alice", ⟨some 2⟩), ("Bob", ⟨some 0⟩)]⟩
        ⟨2, "Bob", true, some [], some 0⟩) = "#a0a0c0" ∧
    ratioColor 0 = "#4ecdc4" := by
  have h1 : workloadRatio ⟨some [("Alice", ⟨some 2⟩), ("Bob", ⟨some 0⟩)]⟩
      ⟨2, "Bob", true, some [], some 0⟩ = 1 := by
    simp [workloadRatio, reportedRatio, orDefault, List.lookup]
  refine ⟨?_, h1, ?_, ?_⟩
  · simp [reportedRatio, List.lookup]
  · rw [h1]
    simp [ratioColor]
    norm_num
  · have ha : ¬ ((1.2 : ℚ) < 0) := by norm_num
    have hb : (0 : ℚ) < 0.8 := by norm_num
    simp only [ratioColor, gt_iff_lt, ha, hb, if_true, if_false]

/-- What the expression `ratio || 1` computes for every report: the reported
ratio when it is a non-zero number, and 1 both when no ratio is reported and
when the reported ratio is 0. -/
theorem workloadRatio_reported_or_one (stats : Stats) (barista : Barista) :
    (∀ r : ℚ, reportedRatio stats barista = some r → r ≠ 0 →
      workloadRatio stats barista = r) ∧
    (reportedRatio stats barista = some 0 → workloadRatio stats barista = 1) ∧
    (reportedRatio stats barista = none → workloadRatio stats barista = 1) ∧
    workloadRatio stats barista ≠ 0 := by
  unfold workloadRatio
  refine ⟨?_, ?_, ?_, ?_⟩
  · intro r hr hne
    simp [hr, orDefault, hne]
  · intro hr
    simp [hr, orDefault]
  · intro hr
    simp [hr, orDefault]
  · cases h : reportedRatio stats barista with
    | none => simp [orDefault]
    | some r =>
      by_cases hr : r = 0
      · simp [orDefault, hr]
      · simp [orDefault, hr]

/-- C9: for every workload ratio, the bar has the 'high' class exactly when
the ratio is strictly greater than 1.2 and exactly when the ratio text is red;
the text is teal exactly when the ratio is strictly below 0.8 and neutral
exactly when 0.8 <= ratio <= 1.2; a ratio of exactly 1.2 is not flagged. -/
theorem workload_flags (r : ℚ) :
    (workloadFillClass r = "workload-fill high" ↔ r > 1.2) ∧
    (ratioColor r = "#ff6b6b" ↔ r > 1.2) ∧
    (ratioColor r = "#4ecdc4" ↔ r < 0.8) ∧
    (ratioColor r = "#a0a0c0" ↔ 0.8 ≤ r ∧ r ≤ 1.2) ∧
    (workloadFillClass r = "workload-fill high" ↔ ratioColor r = "#ff6b6b") ∧
    workloadFillClass 1.2 = "workload-fill " ∧ ratioColor 1.2 = "#a0a0c0" := by
  have e1 : ("workload-fill " ++ "high" : String) = "workload-fill high" := by decide
  have e2 : ("workload-fill " ++ "" : String) ≠ "workload-fill high" := by decide
  have e3 : ("workload-fill " ++ "" : String) = "workload-fill " := by decide
  have c1 : ("#ff6b6b" : String) ≠ "#4ecdc4" := by decide
  have c2 : ("#ff6b6b" : String) ≠ "#a0a0c0" := by decide
  have c3 : ("#4ecdc4" : String) ≠ "#a0a0c0" := by decide
  have hfill : workloadFillClass r = "workload-fill high" ↔ r > 1.2 := by
    unfold workloadFillClass
    split_ifs with h
    · simp [h, e1]
    · simp [h, e2]
  have hred : ratioColor r = "#ff6b6b" ↔ r > 1.2 := by
    unfold ratioColor
    split_ifs with h h2
    · simp [h]
    · simp [h, c1.symm]
    · simp [h, c2.symm]
  refine ⟨hfill, hred, ?_, ?_, hfill.trans hred.symm, ?_, ?_⟩
  · unfold ratioColor
    split_ifs with h h2
    · have : ¬ r < 0.8 := by
        intro h3
        have h4 : (0.8 : ℚ) < 1.2 := by norm_num
        exact lt_irrefl _ (lt_trans (lt_trans h h3) h4)
      simp [this, c1]
    · simp [h2]
    · simp [h2, c3.symm]
  · unfold ratioColor
    split_ifs with h h2
    · have : ¬ r ≤ 1.2 := not_le.mpr h
      simp [this, c2]
    · have : ¬ (0.8 : ℚ) ≤ r := not_le.mpr h2
      simp [this, c3]
    · simp [not_lt.mp h, not_lt.mp h2]
  · simp [workloadFillClass, e3]
  · simp [ratioColor]
    norm_num

theorem currentOrder_isSome_iff (barista : Barista) :
    (currentOrder barista).isSome = true ↔
      ∃ o ∈ barista.assignedOrders.getD [], o.status = "IN_PROGRESS" := by
  unfold currentOrder
  cases barista.assignedOrders with
  | none => simp
  | some orders => simp

theorem handleComplete_effects (baristaId : Nat) (fetchOk : Bool) :
    handleComplete baristaId fetchOk =
      [Effect.fetch (completeRequest baristaId),
       if fetchOk then Effect.fetchData else Effect.consoleError "Failed to complete order:"] := by
  cases fetchOk <;> rfl

/-- C10: for every barista record that satisfies the availability rule
(available iff none of its assignedOrders is IN_PROGRESS), the 'Complete
Order' button is rendered iff the 'Making:' panel is; the panel shows the
first assigned order whose status is IN_PROGRESS; and pressing the button
sends one request, a POST to `/baristas/<id>/complete` with this barista's
id. -/
theorem baristaCard_complete_iff_making (barista : Barista)
    (hrule : barista.available = true ↔
      ∀ o ∈ barista.assignedOrders.getD [], o.status ≠ "IN_PROGRESS") :
    ((baristaCard barista).completeOnClick.isSome = true ↔
      (baristaCard barista).making.isSome = true) ∧
    (∀ o, (baristaCard barista).making = some o →
      o.status = "IN_PROGRESS" ∧
      ∃ before after, barista.assignedOrders = some (before ++ o :: after) ∧
        ∀ x ∈ before, x.status ≠ "IN_PROGRESS") ∧
    (∀ onClick, (baristaCard barista).completeOnClick = some onClick →
      ∀ fetchOk, ∃ r : Request,
        (onClick fetchOk).head? = some (Effect.fetch r) ∧
        (∀ r2, Effect.fetch r2 ∈ onClick fetchOk → r2 = r) ∧
        r.method = "POST" ∧ r.body = none ∧
        r.url = "http://localhost:8080/api/baristas/" ++ toString barista.id ++ "/complete") := by
  refine ⟨?_, ?_, ?_⟩
  · show (if barista.available then none else some (handleComplete barista.id)).isSome = true ↔
      (currentOrder barista).isSome = true
    rw [currentOrder_isSome_iff]
    by_cases ha : barista.available = true
    · have h := hrule.mp ha
      simp only [ha, if_true, Option.isSome_none, Bool.false_eq_true, false_iff]
      rintro ⟨o, ho, hs⟩
      exact h o ho hs
    · have h : ¬ ∀ o ∈ barista.assignedOrders.getD [], o.status ≠ "IN_PROGRESS" :=
        fun h2 => ha (hrule.mpr h2)
      push_neg at h
      simp only [ha, if_false, Option.isSome_some, true_iff, Bool.false_eq_true]
      exact h
  · intro o ho
    have ho2 : currentOrder barista = some o := ho
    unfold currentOrder at ho2
    cases hao : barista.assignedOrders with
    | none => simp [hao] at ho2
    | some orders =>
      simp only [hao, Option.some_bind] at ho2
      obtain ⟨hp, before, after, heq, hbefore⟩ := List.find?_eq_some.mp ho2
      refine ⟨by simpa using hp, before, after, by rw [heq], ?_⟩
      intro x hx
      simpa using hbefore x hx
  · intro onClick hclick fetchOk
    have hclick2 : (if barista.available then none else some (handleComplete barista.id))
        = some onClick := hclick
    by_cases ha : barista.available = true
    · simp [ha] at hclick2
    · simp only [ha, if_false, Option.some.injEq, Bool.false_eq_true] at hclick2
      subst hclick2
      refine ⟨completeRequest barista.id, ?_, ?_, rfl, rfl, ?_⟩
      · rw [handleComplete_effects]
        rfl
      · intro r2 hr2
        rw [handleComplete_effects] at hr2
        cases fetchOk <;> simpa using hr2
      · simp [completeRequest, API_BASE, String.append_assoc]

/-- A busy barista with one completed and one IN_PROGRESS order: the panel
shows the latter and the button is rendered. -/
theorem baristaCard_complete_iff_making_witness :
    (baristaCard ⟨2, "Bob", false,
        some [⟨11, "Latte", "COMPLETED"⟩, ⟨12, "Mocha", "IN_PROGRESS"⟩], some 5⟩).making
      = some ⟨12, "Mocha", "IN_PROGRESS"⟩ ∧
    ((baristaCard ⟨2, "Bob", false,
        some [⟨11, "Latte", "COMPLETED"⟩, ⟨12, "Mocha", "IN_PROGRESS"⟩], some 5⟩).completeOnClick.isSome
      = true ↔
     (baristaCard ⟨2, "Bob", false,
        some [⟨11, "Latte", "COMPLETED"⟩, ⟨12, "Mocha", "IN_PROGRESS"⟩], some 5⟩).making.isSome
      = true) :=
  ⟨by decide,
   (baristaCard_complete_iff_making
      ⟨2, "Bob", false, some [⟨11, "Latte", "COMPLETED"⟩, ⟨12, "Mocha", "IN_PROGRESS"⟩], some 5⟩
      (by decide)).1⟩

/-! ## The wait text and the order queue -/

theorem getOrderClass_eq (now a : Int) :
    getOrderClass now (some a) =
      if 480000 ≤ now - a then "urgent" else if 360000 ≤ now - a then "warning" else "" := by
  have h8 := waitMinutes_ge_iff now a 8
  have h6 := waitMinutes_ge_iff now a 6
  norm_num at h8 h6
  simp only [getOrderClass, ge_iff_le, h8, h6]

theorem waitWholeMinutes_eq (now a : Int) : waitWholeMinutes now a = (now - a) / 60000 := by
  unfold waitWholeMinutes mathFloor
  have h := Rat.floor_intCast_div_natCast (now - a) 60000
  simpa using h

theorem waitSeconds_eq (now a : Int) (h : 0 ≤ now - a) :
    waitSeconds now a = (now - a) % 60000 / 1000 := by
  unfold waitSeconds mathFloor jsRem
  rw [Int.tmod_eq_emod h (by norm_num)]
  have h2 := Rat.floor_intCast_div_natCast ((now - a) % 60000) 1000
  simpa using h2

/-- C17: for every order whose elapsed wait e = now - arrival is non-negative,
with both clock reads equal, `formatWait` returns '<M>m <S>s' with
M = floor(e / 60000) and S = floor((e mod 60000) / 1000), where 0 <= S <= 59
and 60000*M + 1000*S <= e < 60000*M + 1000*(S+1). -/
theorem formatWait_truncates (now a : Int) (h : 0 ≤ now - a) :
    formatWait now now (some a) =
      toString ((now - a) / 60000) ++ "m " ++ toString ((now - a) % 60000 / 1000) ++ "s" ∧
    waitWholeMinutes now a = (now - a) / 60000 ∧
    waitSeconds now a = (now - a) % 60000 / 1000 ∧
    0 ≤ (now - a) / 60000 ∧
    0 ≤ (now - a) % 60000 / 1000 ∧ (now - a) % 60000 / 1000 ≤ 59 ∧
    60000 * ((now - a) / 60000) + 1000 * ((now - a) % 60000 / 1000) ≤ now - a ∧
    now - a < 60000 * ((now - a) / 60000) + 1000 * ((now - a) % 60000 / 1000 + 1) := by
  refine ⟨?_, waitWholeMinutes_eq now a, waitSeconds_eq now a h, ?_, ?_, ?_, ?_, ?_⟩
  · simp only [formatWait, waitWholeMinutes_eq, waitSeconds_eq now a h]
  all_goals omega

/-- An order that arrived 7 minutes 5.25 seconds ago is shown as '7m 5s'. -/
theorem formatWait_truncates_witness :
    formatWait 1425250 1425250 (some 1000000) = "7m 5s" := by
  have h := (formatWait_truncates 1425250 1000000 (by decide)).1
  rw [h]
  decide

/-- C18: the highlight and the displayed wait of a card, evaluated at one
clock reading, agree: `getOrderClass` is 'urgent' iff the minutes shown by
`formatWait` are >= 8, 'warning' iff they are 6 or 7, and '' iff they are
<= 5. -/
theorem getOrderClass_agrees_with_formatWait (now a : Int) :
    formatWait now now (some a) =
      toString (waitWholeMinutes now a) ++ "m " ++ toString (waitSeconds now a) ++ "s" ∧
    (getOrderClass now (some a) = "urgent" ↔ 8 ≤ waitWholeMinutes now a) ∧
    (getOrderClass now (some a) = "warning" ↔
      waitWholeMinutes now a = 6 ∨ waitWholeMinutes now a = 7) ∧
    (getOrderClass now (some a) = "" ↔ waitWholeMinutes now a ≤ 5) := by
  refine ⟨rfl, ?_, ?_, ?_⟩
  all_goals
    rw [getOrderClass_eq, waitWholeMinutes_eq]
    split_ifs with h1 h2 <;> simp <;> omega

/-- The result of `Math.round` is within one half of its argument, and no
whole number is closer. -/
theorem mathRound_nearest (x : ℚ) :
    |(mathRound x : ℚ) - x| ≤ 1 / 2 ∧ ∀ k : Int, |(mathRound x : ℚ) - x| ≤ |(k : ℚ) - x| := by
  have h1 : (mathRound x : ℚ) ≤ x + 1 / 2 := Int.floor_le (x + 1 / 2)
  have h2 : x + 1 / 2 < (mathRound x : ℚ) + 1 := Int.lt_floor_add_one (x + 1 / 2)
  have hhalf : |(mathRound x : ℚ) - x| ≤ 1 / 2 := by
    rw [abs_le]
    constructor <;> linarith
  refine ⟨hhalf, ?_⟩
  intro k
  rcases lt_trichotomy k (mathRound x) with hk | hk | hk
  · have hk2 : (k : ℚ) + 1 ≤ (mathRound x : ℚ) := by exact_mod_cast hk
    have h3 : 1 / 2 ≤ x - (k : ℚ) := by linarith
    have h4 : x - (k : ℚ) ≤ |(k : ℚ) - x| := by
      rw [abs_sub_comm]
      exact le_abs_self _
    linarith
  · rw [hk]
  · have hk2 : (mathRound x : ℚ) + 1 ≤ (k : ℚ) := by exact_mod_cast hk
    have h3 : 1 / 2 ≤ (k : ℚ) - x := by linarith
    have h4 : (k : ℚ) - x ≤ |(k : ℚ) - x| := le_abs_self _
    linarith

theorem fetchData_queue (d : DashboardData) (r : FetchedBodies) (q : List JsObj)
    (h : r.queue = some q) : (fetchData d (some r)).queue = q := by
  unfold fetchData
  simp only [h]
  cases r.baristas <;> cases r.stats <;> cases r.alerts <;> rfl

/-- C11: for every order list `q` returned by GET /orders, the queue rendered
after `fetchData` has one card per order of `q`, in the order of `q`, each
rendered from the order at its position; the header count is the length of
`q`; and a card whose order has the numeric priority `p` shows
`Math.round(p)`, the whole number nearest to `p` (within one half of it, no
whole number closer), written as its decimal numeral when its magnitude is
below 2^53, which covers the 0–100 priority range. A poll whose `Promise.all`
rejects leaves the queue as it was. -/
theorem queueSection_mirrors_response (getTime : JsVal → Option Int) (now : Int)
    (d : DashboardData) (r : FetchedBodies) (q : List JsObj) :
    (queueSection getTime now (fetchData d (some { r with queue := some q })).queue).cards.map
        (fun c => c.order) = q ∧
    (queueSection getTime now (fetchData d (some { r with queue := some q })).queue).cards.length
        = q.length ∧
    (queueSection getTime now (fetchData d (some { r with queue := some q })).queue).headerCount
        = q.length ∧
    (∀ c ∈ (queueSection getTime now
        (fetchData d (some { r with queue := some q })).queue).cards,
      c = orderCard getTime now c.order ∧
      ∀ p : ℚ, getProp c.order "priority" = JsVal.num p →
        c.priority = wholeNumberText (mathRound p) ∧
        ((mathRound p).natAbs < 9007199254740992 →
          c.priority = some (toString (mathRound p))) ∧
        (0 ≤ p ∧ p ≤ 100 → c.priority = some (toString (mathRound p))) ∧
        |(mathRound p : ℚ) - p| ≤ 1 / 2 ∧
        ∀ k : Int, |(mathRound p : ℚ) - p| ≤ |(k : ℚ) - p|) ∧
    (fetchData d none).queue = d.queue := by
  refine And.intro ?_ (And.intro ?_ (And.intro ?_ (And.intro ?_ rfl)))
  all_goals rw [fetchData_queue d { r with queue := some q } q rfl]
  all_goals
    have hcards : (queueSection getTime now q).cards = q.map (orderCard getTime now) := by
      unfold queueSection
      by_cases h0 : q.length = 0
      · have : q = [] := List.length_eq_zero.mp h0
        simp [this]
      · simp [h0]
  · rw [hcards, List.map_map]
    have : ((fun c => c.order) ∘ orderCard getTime now) = id := by
      funext o
      rfl
    rw [this, List.map_id]
  · rw [hcards, List.length_map]
  · rfl
  · intro c hc
    rw [hcards, List.mem_map] at hc
    obtain ⟨o, _, rfl⟩ := hc
    refine ⟨rfl, ?_⟩
    intro p hp
    have hp2 : getProp o "priority" = JsVal.num p := hp
    have htext : priorityText o = wholeNumberText (mathRound p) := by
      simp [priorityText, hp2]
    have hsmall : (mathRound p).natAbs < 9007199254740992 →
        priorityText o = some (toString (mathRound p)) := by
      intro hb
      rw [htext]
      simp [wholeNumberText, hb]
    refine ⟨htext, hsmall, ?_, mathRound_nearest p⟩
    intro hrange
    apply hsmall
    have h0 : (0 : Int) ≤ mathRound p := by
      unfold mathRound
      rw [Int.le_floor]
      push_cast
      linarith [hrange.1]
    have h1 : mathRound p < 101 := by
      unfold mathRound
      rw [Int.floor_lt]
      push_cast
      linarith [hrange.2]
    omega

/-! ## The priority formula -/

theorem combinedScore_eq (w c l u : ℚ) :
    combinedScore w c l u = 0.40 * w + 0.25 * c + 0.10 * l + 0.25 * u := by
  simp only [combinedScore, priorityTerms, WeightedTerm.weight, List.zipWith, List.sum_cons,
    List.sum_nil]
  norm_num
  ring

/-- C12: the banner the client displays is the formula of the specification,
with the terms Wait, Complexity, Loyalty, Urgency and the weights 0.40, 0.25,
0.10, 0.25; the weights sum to exactly 1; and for all sub-scores in [0,1] the
combined score lies in [0,1] and the scaled priority in [0,100]. -/
theorem priority_formula_bounds (w c l u : ℚ)
    (hw : 0 ≤ w ∧ w ≤ 1) (hc : 0 ≤ c ∧ c ≤ 1) (hl : 0 ≤ l ∧ l ≤ 1) (hu : 0 ≤ u ∧ u ≤ 1) :
    formulaBanner = formulaText priorityTerms ∧
    (priorityTerms.map WeightedTerm.weight).sum = 1 ∧
    combinedScore w c l u = 0.40 * w + 0.25 * c + 0.10 * l + 0.25 * u ∧
    (0 ≤ combinedScore w c l u ∧ combinedScore w c l u ≤ 1) ∧
    (0 ≤ scaledPriority w c l u ∧ scaledPriority w c l u ≤ 100) := by
  have hsum : (priorityTerms.map WeightedTerm.weight).sum = 1 := by
    simp only [priorityTerms, WeightedTerm.weight, List.map, List.sum_cons, List.sum_nil]
    norm_num
  have heq := combinedScore_eq w c l u
  obtain ⟨hw0, hw1⟩ := hw
  obtain ⟨hc0, hc1⟩ := hc
  obtain ⟨hl0, hl1⟩ := hl
  obtain ⟨hu0, hu1⟩ := hu
  have h0 : 0 ≤ combinedScore w c l u := by
    rw [heq]
    norm_num
    linarith
  have h1 : combinedScore w c l u ≤ 1 := by
    rw [heq]
    norm_num
    linarith
  refine ⟨by decide, hsum, heq, ⟨h0, h1⟩, ?_, ?_⟩
  · unfold scaledPriority
    linarith
  · unfold scaledPriority
    linarith

/-- All four sub-scores at 1 give the combined score 1 and the priority 100. -/
theorem priority_formula_bounds_witness :
    combinedScore 1 1 1 1 = 1 ∧ scaledPriority 1 1 1 1 ≤ 100 := by
  have h := priority_formula_bounds 1 1 1 1 (by norm_num) (by norm_num) (by norm_num)
    (by norm_num)
  refine ⟨?_, h.2.2.2.2.2⟩
  rw [h.2.2.1]
  norm_num

/-! ## The scheduler behind the client -/

/-- Orders rewritten without a change of id and without a new QUEUED or
IN_PROGRESS status, and workers rewritten without a change of id or history
and made available only when idle, keep the invariant. -/
theorem schedInv_retire {st st2 : Scheduler} (h : SchedInv st)
    (f : SchedOrder → SchedOrder) (g : Worker → Worker)
    (ho : st2.orders = st.orders.map f) (hw : st2.workers = st.workers.map g)
    (hn : st2.nextOrderId = st.nextOrderId)
    (fid : ∀ o, (f o).id = o.id)
    (fq : ∀ o, (f o).status = OrderStatus.QUEUED → o.status = OrderStatus.QUEUED)
    (fp : ∀ o, (f o).status = OrderStatus.IN_PROGRESS → o.status = OrderStatus.IN_PROGRESS)
    (gid : ∀ w, (g w).id = w.id)
    (gh : ∀ w, (g w).assignedOrders = w.assignedOrders)
    (ga : ∀ w ∈ st.workers, (g w).available = true →
      ∀ o ∈ st.orders, (f o).status = OrderStatus.IN_PROGRESS → o.id ∉ w.assignedOrders) :
    SchedInv st2 := by
  have hoid : st2.orders.map (fun o => o.id) = st.orders.map (fun o => o.id) := by
    rw [ho, List.map_map]
    exact List.map_congr_left (fun o _ => fid o)
  have hwid : st2.workers.map (fun w => w.id) = st.workers.map (fun w => w.id) := by
    rw [hw, List.map_map]
    exact List.map_congr_left (fun w _ => gid w)
  have omem : ∀ o2 ∈ st2.orders, ∃ o ∈ st.orders, f o = o2 := by
    intro o2 h2
    rw [ho] at h2
    exact List.mem_map.mp h2
  have wmem : ∀ w2 ∈ st2.workers, ∃ w ∈ st.workers, g w = w2 := by
    intro w2 h2
    rw [hw] at h2
    exact List.mem_map.mp h2
  constructor
  · rw [hoid]
    exact h.orderIds
  · intro o2 h2
    obtain ⟨o, hom, rfl⟩ := omem o2 h2
    rw [fid, hn]
    exact h.orderIdsBelow o hom
  · rw [hwid]
    exact h.workerIds
  · intro w2 h2 i hi
    obtain ⟨w, hwm, rfl⟩ := wmem w2 h2
    rw [gh] at hi
    rw [hn]
    exact h.historyBelow w hwm i hi
  · intro o2 h2 hq w2 hw2
    obtain ⟨o, hom, rfl⟩ := omem o2 h2
    obtain ⟨w, hwm, rfl⟩ := wmem w2 hw2
    rw [fid, gh]
    exact h.queuedUnassigned o hom (fq o hq) w hwm
  · intro w2 hw2 hav o2 h2 hp
    obtain ⟨o, hom, rfl⟩ := omem o2 h2
    obtain ⟨w, hwm, rfl⟩ := wmem w2 hw2
    rw [fid, gh]
    exact ga w hwm hav o hom hp
  · intro w2 hw2 a2 ha2 b2 hb2 hpa hpb hia hib
    obtain ⟨w, hwm, rfl⟩ := wmem w2 hw2
    obtain ⟨a, ham, rfl⟩ := omem a2 ha2
    obtain ⟨b, hbm, rfl⟩ := omem b2 hb2
    rw [fid, gh] at hia hib
    rw [fid, fid]
    exact h.oneInProgress w hwm a ham b hbm (fp a hpa) (fp b hpb) hia hib
  · intro w2 hw2
    obtain ⟨w, hwm, rfl⟩ := wmem w2 hw2
    rw [gh]
    exact h.historyNodup w hwm

/-- Orders rewritten without a change of id or of status keep the invariant,
whatever happens to the alert log and the timeout counter. -/
theorem schedInv_mapOrders {st st2 : Scheduler} (h : SchedInv st)
    (f : SchedOrder → SchedOrder)
    (ho : st2.orders = st.orders.map f) (hw : st2.workers = st.workers)
    (hn : st2.nextOrderId = st.nextOrderId)
    (fid : ∀ o, (f o).id = o.id) (fs : ∀ o, (f o).status = o.status) :
    SchedInv st2 := by
  refine schedInv_retire h f id ho (by rw [hw, List.map_id]) hn fid ?_ ?_ (fun _ => rfl) (fun _ => rfl) ?_
  · intro o hq
    rw [← fs o]
    exact hq
  · intro o hp
    rw [← fs o]
    exact hp
  · intro w hwm hav o hom hp
    rw [fs o] at hp
    exact h.availableIdle w hwm hav o hom hp

theorem schedInv_rescore {st : Scheduler} (h : SchedInv st) (cfg : ScoreConfig) (now : Int) :
    SchedInv (rescore cfg now st) := by
  refine schedInv_mapOrders h _ rfl rfl rfl ?_ ?_
  · intro o
    split_ifs <;> rfl
  · intro o
    split_ifs <;> rfl

theorem schedInv_bumpSkips {st : Scheduler} (h : SchedInv st) : SchedInv (bumpSkips st) := by
  refine schedInv_mapOrders h _ rfl rfl rfl ?_ ?_
  · intro o
    split_ifs <;> rfl
  · intro o
    split_ifs <;> rfl

theorem schedInv_fairnessAlerts {st : Scheduler} (h : SchedInv st) :
    SchedInv (fairnessAlerts st) :=
  schedInv_mapOrders h id (by simp [fairnessAlerts]) rfl rfl (fun _ => rfl) (fun _ => rfl)

/-- Two workers of the pool with the same id are the same worker. -/
theorem schedInv_worker_eq {st : Scheduler} (h : SchedInv st) {w v : Worker}
    (hw : w ∈ st.workers) (hv : v ∈ st.workers) (hid : w.id = v.id) : w = v :=
  List.inj_on_of_nodup_map h.workerIds hw hv hid

/-- Two orders of the scheduler with the same id are the same order. -/
theorem schedInv_order_eq {st : Scheduler} (h : SchedInv st) {a b : SchedOrder}
    (ha : a ∈ st.orders) (hb : b ∈ st.orders) (hid : a.id = b.id) : a = b :=
  List.inj_on_of_nodup_map h.orderIds ha hb hid

/-- An assignment of a QUEUED order to an available worker keeps the
invariant. -/
theorem schedInv_assign {st : Scheduler} (h : SchedInv st) (w0 : Worker) (o0 : SchedOrder)
    (hw0 : w0 ∈ st.workers) (hav0 : w0.available = true)
    (ho0 : o0 ∈ st.orders) (hq0 : o0.status = OrderStatus.QUEUED) :
    SchedInv (assign st w0.id o0.id) := by
  have hfree : ∀ w ∈ st.workers, o0.id ∉ w.assignedOrders :=
    h.queuedUnassigned o0 ho0 hq0
  -- the rewritten order and worker, case by case
  have omem : ∀ o2 ∈ (assign st w0.id o0.id).orders, ∃ o ∈ st.orders,
      o2.id = o.id ∧
      ((o.id = o0.id ∧ o2.status = OrderStatus.IN_PROGRESS) ∨ (o.id ≠ o0.id ∧ o2 = o)) := by
    intro o2 h2
    obtain ⟨o, hom, rfl⟩ := List.mem_map.mp h2
    refine ⟨o, hom, ?_, ?_⟩
    · split_ifs <;> rfl
    · by_cases hc : o.id = o0.id
      · left
        exact ⟨hc, by simp [hc]⟩
      · right
        exact ⟨hc, by simp [hc]⟩
  have wmem : ∀ w2 ∈ (assign st w0.id o0.id).workers, ∃ w ∈ st.workers,
      w2.id = w.id ∧
      ((w.id = w0.id ∧ w2.available = false ∧
          w2.assignedOrders = w.assignedOrders ++ [o0.id]) ∨
       (w.id ≠ w0.id ∧ w2 = w)) := by
    intro w2 h2
    obtain ⟨w, hwm, rfl⟩ := List.mem_map.mp h2
    refine ⟨w, hwm, ?_, ?_⟩
    · split_ifs <;> rfl
    · by_cases hc : w.id = w0.id
      · left
        exact ⟨hc, by simp [hc], by simp [hc]⟩
      · right
        exact ⟨hc, by simp [hc]⟩
  have hoid : (assign st w0.id o0.id).orders.map (fun o => o.id)
      = st.orders.map (fun o => o.id) := by
    show (st.orders.map _).map _ = _
    rw [List.map_map]
    apply List.map_congr_left
    intro o _
    show (if o.id = o0.id then _ else o).id = o.id
    split_ifs <;> rfl
  have hwid : (assign st w0.id o0.id).workers.map (fun w => w.id)
      = st.workers.map (fun w => w.id) := by
    show (st.workers.map _).map _ = _
    rw [List.map_map]
    apply List.map_congr_left
    intro w _
    show (if w.id = w0.id then _ else w).id = w.id
    split_ifs <;> rfl
  -- an order in progress after the assignment whose id is in an old history was
  -- in progress before
  have hold : ∀ o2 ∈ (assign st w0.id o0.id).orders,
      o2.status = OrderStatus.IN_PROGRESS → ∀ w ∈ st.workers, o2.id ∈ w.assignedOrders →
      o2 ∈ st.orders := by
    intro o2 h2 _ w hwm hin
    obtain ⟨o, hom, hid, hc | hc⟩ := omem o2 h2
    · exact absurd (by rw [hid, hc.1] at hin; exact hin) (hfree w hwm)
    · rw [hc.2]
      exact hom
  constructor
  · rw [hoid]
    exact h.orderIds
  · intro o2 h2
    obtain ⟨o, hom, hid, _⟩ := omem o2 h2
    rw [hid]
    exact h.orderIdsBelow o hom
  · rw [hwid]
    exact h.workerIds
  · intro w2 hw2 i hi
    obtain ⟨w, hwm, _, hc | hc⟩ := wmem w2 hw2
    · rw [hc.2.2, List.mem_append, List.mem_singleton] at hi
      rcases hi with hi | hi
      · exact h.historyBelow w hwm i hi
      · rw [hi]
        exact h.orderIdsBelow o0 ho0
    · rw [hc.2] at hi
      exact h.historyBelow w hwm i hi
  · intro o2 h2 hq w2 hw2
    obtain ⟨o, hom, hid, hc | hc⟩ := omem o2 h2
    · rw [hc.2] at hq
      exact absurd hq (by decide)
    · obtain ⟨w, hwm, _, hd | hd⟩ := wmem w2 hw2
      · rw [hd.2.2, List.mem_append, List.mem_singleton, hid]
        rw [hc.2] at hq
        rintro (hx | hx)
        · exact h.queuedUnassigned o hom hq w hwm hx
        · exact hc.1 hx
      · rw [hd.2, hc.2]
        rw [hc.2] at hq
        exact h.queuedUnassigned o hom hq w hwm
  · intro w2 hw2 hav o2 h2 hp hin
    obtain ⟨w, hwm, _, hd | hd⟩ := wmem w2 hw2
    · rw [hd.2.1] at hav
      exact absurd hav (by decide)
    · rw [hd.2] at hav hin
      have hmem := hold o2 h2 hp w hwm hin
      exact h.availableIdle w hwm hav o2 hmem hp hin
  · intro w2 hw2 a2 ha2 b2 hb2 hpa hpb hia hib
    obtain ⟨w, hwm, _, hd | hd⟩ := wmem w2 hw2
    · have hww : w = w0 := schedInv_worker_eq h hwm hw0 hd.1
      subst hww
      rw [hd.2.2, List.mem_append, List.mem_singleton] at hia hib
      have key : ∀ o2 ∈ (assign st w.id o0.id).orders,
          o2.status = OrderStatus.IN_PROGRESS →
          (o2.id ∈ w.assignedOrders ∨ o2.id = o0.id) → o2.id = o0.id := by
        intro o2 h2 hp hi
        rcases hi with hi | hi
        · have hmem := hold o2 h2 hp w hwm hi
          exact absurd hi (h.availableIdle w hwm hav0 o2 hmem hp)
        · exact hi
      rw [key a2 ha2 hpa hia, key b2 hb2 hpb hib]
    · rw [hd.2] at hia hib
      exact h.oneInProgress w hwm a2 (hold a2 ha2 hpa w hwm hia) b2 (hold b2 hb2 hpb w hwm hib)
        hpa hpb hia hib
  · intro w2 hw2
    obtain ⟨w, hwm, _, hd | hd⟩ := wmem w2 hw2
    · rw [hd.2.2]
      refine List.Nodup.append (h.historyNodup w hwm) (List.nodup_singleton _) ?_
      intro i hi hi2
      rw [List.mem_singleton] at hi2
      rw [hi2] at hi
      exact hfree w hwm hi
    · rw [hd.2]
      exact h.historyNodup w hwm

theorem rankedQueue_mem (st : Scheduler) (i : Nat) (hi : i ∈ rankedQueue st) :
    ∃ o ∈ st.orders, o.id = i ∧ o.status = OrderStatus.QUEUED := by
  unfold rankedQueue at hi
  obtain ⟨o, ho, rfl⟩ := List.mem_map.mp hi
  have ho2 := (List.perm_insertionSort (fun a b => ranksBefore a b = true) _).mem_iff.mp ho
  rw [List.mem_filter] at ho2
  exact ⟨o, ho2.1, rfl, by simpa using ho2.2⟩

theorem rankedQueue_nodup {st : Scheduler} (h : SchedInv st) : (rankedQueue st).Nodup := by
  unfold rankedQueue
  have hperm := (List.perm_insertionSort (fun a b => ranksBefore a b = true)
    (st.orders.filter (fun o => decide (o.status = OrderStatus.QUEUED)))).map (fun o => o.id)
  rw [hperm.nodup_iff]
  exact List.Nodup.sublist (List.Sublist.map _ (List.filter_sublist _)) h.orderIds

theorem leastLoadedAvailable_mem (st : Scheduler) (w : Worker)
    (h : leastLoadedAvailable st = some w) : w ∈ st.workers ∧ w.available = true := by
  unfold leastLoadedAvailable at h
  have hm : w ∈ st.workers.filter (fun w => w.available) := List.argmin_mem h
  rw [List.mem_filter] at hm
  exact hm

/-- The assignment loop keeps the invariant when it is run on distinct ids of
QUEUED orders. -/
theorem schedInv_dispatch (ids : List Nat) : ∀ {st : Scheduler}, SchedInv st →
    (∀ i ∈ ids, ∃ o ∈ st.orders, o.id = i ∧ o.status = OrderStatus.QUEUED) → ids.Nodup →
    SchedInv (dispatch st ids) := by
  induction ids with
  | nil =>
    intro st h _ _
    exact h
  | cons i rest ih =>
    intro st h hq hnd
    unfold dispatch
    cases hl : leastLoadedAvailable st with
    | none => exact h
    | some w =>
      obtain ⟨hwm, hav⟩ := leastLoadedAvailable_mem st w hl
      obtain ⟨o, hom, hoi, hoq⟩ := hq i (List.mem_cons_self _ _)
      have hstep : SchedInv (assign st w.id i) := by
        rw [← hoi]
        exact schedInv_assign h w o hwm hav hom hoq
      refine ih hstep ?_ (List.nodup_cons.mp hnd).2
      intro j hj
      obtain ⟨oj, hjm, hji, hjq⟩ := hq j (List.mem_cons_of_mem _ hj)
      have hne : oj.id ≠ i := by
        rw [hji]
        intro hc
        rw [hc] at hj
        exact (List.nodup_cons.mp hnd).1 hj
      refine ⟨oj, ?_, hji, hjq⟩
      show oj ∈ st.orders.map _
      refine List.mem_map.mpr ⟨oj, hjm, ?_⟩
      simp [hne]

theorem schedInv_tick {st : Scheduler} (h : SchedInv st) (cfg : ScoreConfig) (now : Int) :
    SchedInv (tick cfg now st) := by
  unfold tick
  have h1 := schedInv_rescore h cfg now
  have h2 := schedInv_dispatch (rankedQueue (rescore cfg now st)) h1
    (rankedQueue_mem (rescore cfg now st)) (rankedQueue_nodup h1)
  exact schedInv_fairnessAlerts (schedInv_bumpSkips h2)

/-- A new QUEUED order with the next id keeps the invariant. -/
theorem schedInv_addOrder {st : Scheduler} (h : SchedInv st) (o : SchedOrder)
    (hid : o.id = st.nextOrderId) (hq : o.status = OrderStatus.QUEUED) :
    SchedInv { st with orders := st.orders ++ [o], nextOrderId := st.nextOrderId + 1 } := by
  constructor
  · show ((st.orders ++ [o]).map (fun o => o.id)).Nodup
    rw [List.map_append]
    refine List.Nodup.append h.orderIds (List.nodup_singleton _) ?_
    intro i hi hi2
    obtain ⟨a, ham, rfl⟩ := List.mem_map.mp hi
    simp only [List.map_cons, List.map_nil, List.mem_singleton] at hi2
    have := h.orderIdsBelow a ham
    omega
  · intro a ha
    show a.id < st.nextOrderId + 1
    rcases List.mem_append.mp ha with ha | ha
    · have := h.orderIdsBelow a ha
      omega
    · rw [List.mem_singleton] at ha
      rw [ha, hid]
      omega
  · exact h.workerIds
  · intro w hw i hi
    show i < st.nextOrderId + 1
    have := h.historyBelow w hw i hi
    omega
  · intro a ha haq w hw hin
    rcases List.mem_append.mp ha with ha | ha
    · exact h.queuedUnassigned a ha haq w hw hin
    · rw [List.mem_singleton] at ha
      rw [ha, hid] at hin
      have := h.historyBelow w hw _ hin
      omega
  · intro w hw hav a ha hp
    rcases List.mem_append.mp ha with ha | ha
    · exact h.availableIdle w hw hav a ha hp
    · rw [List.mem_singleton] at ha
      rw [ha, hq] at hp
      exact absurd hp (by decide)
  · intro w hw a ha b hb hpa hpb hia hib
    have hold : ∀ x ∈ st.orders ++ [o], x.status = OrderStatus.IN_PROGRESS → x ∈ st.orders := by
      intro x hx hp
      rcases List.mem_append.mp hx with hx | hx
      · exact hx
      · rw [List.mem_singleton] at hx
        rw [hx, hq] at hp
        exact absurd hp (by decide)
    exact h.oneInProgress w hw a (hold a ha hpa) b (hold b hb hpb) hpa hpb hia hib
  · exact h.historyNodup

/-- A completion keeps the invariant: the worker that is made available has
had its IN_PROGRESS orders completed. -/
theorem schedInv_release {st : Scheduler} (h : SchedInv st) (w : Worker)
    (hw : w ∈ st.workers) : SchedInv (release st w) := by
  refine schedInv_retire h
    (fun o => if o.status = OrderStatus.IN_PROGRESS ∧ o.id ∈ w.assignedOrders then
      { o with status := OrderStatus.COMPLETED } else o)
    (fun v => if v.id = w.id then { v with available := true } else v)
    rfl rfl rfl ?_ ?_ ?_ ?_ ?_ ?_
  · intro o
    show (if _ then _ else o).id = o.id
    split_ifs <;> rfl
  · intro o
    show (if _ then _ else o).status = _ → _
    split_ifs
    · intro hc
      exact absurd hc (by decide)
    · exact id
  · intro o
    show (if _ then _ else o).status = _ → _
    split_ifs
    · intro hc
      exact absurd hc (by decide)
    · exact id
  · intro v
    show (if _ then _ else v).id = v.id
    split_ifs <;> rfl
  · intro v
    show (if _ then _ else v).assignedOrders = v.assignedOrders
    split_ifs <;> rfl
  · intro v hv hav o ho hp hin
    by_cases hc : o.status = OrderStatus.IN_PROGRESS ∧ o.id ∈ w.assignedOrders
    · simp only [hc, and_self, if_true] at hp
      exact absurd hp (by decide)
    · simp only [hc, if_false] at hp
      by_cases hvw : v.id = w.id
      · have hvw2 : v = w := schedInv_worker_eq h hv hw hvw
        rw [hvw2] at hin
        exact hc ⟨hp, hin⟩
      · simp only [hvw, if_false] at hav
        exact h.availableIdle v hv hav o ho hp hin

theorem inProgressOf_mem (st : Scheduler) (w : Worker) (o : SchedOrder) :
    o ∈ inProgressOf st w ↔
      o ∈ st.orders ∧ o.status = OrderStatus.IN_PROGRESS ∧ o.id ∈ w.assignedOrders := by
  simp [inProgressOf, List.mem_filter]

/-- The state change of a timeout sweep keeps the invariant: a worker is made
available only when its one IN_PROGRESS order is among the expired. -/
theorem schedInv_expireOrders {st : Scheduler} (h : SchedInv st) (now : Int) :
    SchedInv (expireOrders now st) := by
  refine schedInv_retire h
    (fun o => if expired now o then { o with status := OrderStatus.TIMED_OUT } else o)
    (fun w => if (inProgressOf st w).any (expired now) then { w with available := true } else w)
    rfl rfl rfl ?_ ?_ ?_ ?_ ?_ ?_
  · intro o
    show (if _ then _ else o).id = o.id
    split_ifs <;> rfl
  · intro o
    show (if _ then _ else o).status = _ → _
    split_ifs
    · intro hc
      exact absurd hc (by decide)
    · exact id
  · intro o
    show (if _ then _ else o).status = _ → _
    split_ifs
    · intro hc
      exact absurd hc (by decide)
    · exact id
  · intro w
    show (if _ then _ else w).id = w.id
    split_ifs <;> rfl
  · intro w
    show (if _ then _ else w).assignedOrders = w.assignedOrders
    split_ifs <;> rfl
  · intro w hw hav o ho hp hin
    by_cases he : expired now o = true
    · simp only [he, if_true] at hp
      exact absurd hp (by decide)
    · simp only [he, if_false] at hp
      by_cases hany : (inProgressOf st w).any (expired now) = true
      · obtain ⟨oe, hoe, hexp⟩ := List.any_eq_true.mp hany
        obtain ⟨hoem, hoep, hoei⟩ := (inProgressOf_mem st w oe).mp hoe
        have hid := h.oneInProgress w hw o ho oe hoem hp hoep hin hoei
        have heq : o = oe := schedInv_order_eq h ho hoem hid
        rw [heq] at he
        exact he hexp
      · simp only [hany, if_false] at hav
        exact h.availableIdle w hw hav o ho hp hin

theorem schedInv_init (names : List String) : SchedInv (Scheduler.init names) := by
  constructor
  · exact List.nodup_nil
  · intro o ho
    exact absurd ho (List.not_mem_nil o)
  · show ((names.enum.map _).map _).Nodup
    rw [List.map_map]
    have hfun : ((fun w : Worker => w.id) ∘ fun p : Nat × String =>
        ({ id := p.1 + 1, name := p.2, available := true, assignedOrders := [] } : Worker))
        = (fun n => n + 1) ∘ Prod.fst := by
      funext p
      rfl
    rw [hfun, ← List.map_map, List.enum_map_fst]
    exact (List.nodup_range _).map (fun a b hab => Nat.succ.inj hab)
  · intro w hw i hi
    obtain ⟨p, _, rfl⟩ := List.mem_map.mp hw
    exact absurd hi (List.not_mem_nil i)
  · intro o ho
    exact absurd ho (List.not_mem_nil o)
  · intro w _ _ o ho
    exact absurd ho (List.not_mem_nil o)
  · intro w _ a ha
    exact absurd ha (List.not_mem_nil a)
  · intro w hw
    obtain ⟨p, _, rfl⟩ := List.mem_map.mp hw
    exact List.nodup_nil

theorem schedInv_submitOrder {st st2 : Scheduler} (h : SchedInv st) (cfg : ScoreConfig)
    (now : Int) (drinkName : String) (prepTimeMinutes loyaltyTier : Nat)
    (isRegularCustomer : Bool)
    (heq : submitOrder cfg now drinkName prepTimeMinutes loyaltyTier isRegularCustomer st
      = Except.ok st2) : SchedInv st2 := by
  unfold submitOrder at heq
  split_ifs at heq
  injection heq with heq
  rw [← heq]
  exact schedInv_tick (schedInv_addOrder h _ rfl rfl) cfg now

theorem schedInv_completeOrder {st st2 : Scheduler} (h : SchedInv st) (cfg : ScoreConfig)
    (now : Int) (workerId : Nat) (heq : completeOrder cfg now workerId st = Except.ok st2) :
    SchedInv st2 := by
  unfold completeOrder at heq
  cases hf : st.workers.find? (fun w => w.id == workerId) with
  | none =>
    rw [hf] at heq
    cases heq
  | some w =>
    rw [hf] at heq
    have hw : w ∈ st.workers := List.mem_of_find?_eq_some hf
    simp only at heq
    split_ifs at heq
    injection heq with heq
    rw [← heq]
    exact schedInv_tick (schedInv_release h w hw) cfg now

theorem schedInv_timeoutSweep {st : Scheduler} (h : SchedInv st) (cfg : ScoreConfig)
    (now : Int) : SchedInv (timeoutSweep cfg now st) := by
  unfold timeoutSweep
  split_ifs
  · exact schedInv_tick (schedInv_expireOrders h now) cfg now
  · exact schedInv_expireOrders h now

theorem schedInv_applyEvent {st : Scheduler} (h : SchedInv st) (cfg : ScoreConfig)
    (e : SchedEvent) : SchedInv (applyEvent cfg st e) := by
  cases e with
  | submit now drinkName prepTimeMinutes loyaltyTier isRegularCustomer =>
    show SchedInv (match submitOrder cfg now drinkName prepTimeMinutes loyaltyTier
      isRegularCustomer st with
      | Except.ok st2 => st2
      | Except.error _ => st)
    cases hc : submitOrder cfg now drinkName prepTimeMinutes loyaltyTier isRegularCustomer st with
    | ok st2 => exact schedInv_submitOrder h cfg now _ _ _ _ hc
    | error _ => exact h
  | tick now => exact schedInv_tick h cfg now
  | complete now workerId =>
    show SchedInv (match completeOrder cfg now workerId st with
      | Except.ok st2 => st2
      | Except.error _ => st)
    cases hc : completeOrder cfg now workerId st with
    | ok st2 => exact schedInv_completeOrder h cfg now workerId hc
    | error _ => exact h
  | timeoutSweep now => exact schedInv_timeoutSweep h cfg now

theorem schedInv_foldl (cfg : ScoreConfig) (events : List SchedEvent) :
    ∀ st : Scheduler, SchedInv st → SchedInv (events.foldl (applyEvent cfg) st) := by
  induction events with
  | nil =>
    intro st h
    exact h
  | cons e es ih =>
    intro st h
    exact ih _ (schedInv_applyEvent h cfg e)

/-- Every state the engine reaches satisfies the invariant. -/
theorem schedInv_runScheduler (cfg : ScoreConfig) (names : List String)
    (events : List SchedEvent) : SchedInv (runScheduler cfg names events) :=
  schedInv_foldl cfg events _ (schedInv_init names)

/-- In a list without repetition, a property that at most one element can have
selects at most one element. -/
theorem filter_length_le_one {α : Type} (p : α → Bool) (l : List α) (hnd : l.Nodup)
    (huniq : ∀ a ∈ l, ∀ b ∈ l, p a = true → p b = true → a = b) :
    (l.filter p).length ≤ 1 := by
  induction l with
  | nil => simp
  | cons a t ih =>
    obtain ⟨hat, hnt⟩ := List.nodup_cons.mp hnd
    by_cases hpa : p a = true
    · have hnil : t.filter p = [] := by
        rw [List.filter_eq_nil_iff]
        intro b hb hpb
        have hab := huniq a (List.mem_cons_self _ _) b (List.mem_cons_of_mem _ hb) hpa hpb
        rw [hab] at hat
        exact hat hb
      simp [List.filter_cons, hpa, hnil]
    · have hrec := ih hnt (fun x hx y hy =>
        huniq x (List.mem_cons_of_mem _ hx) y (List.mem_cons_of_mem _ hy))
      simpa [List.filter_cons, hpa] using hrec

theorem length_filterMap_eq_filter {α β : Type} (f : α → Option β) (l : List α) :
    (l.filterMap f).length = (l.filter (fun a => (f a).isSome)).length := by
  induction l with
  | nil => rfl
  | cons a t ih =>
    cases h : f a with
    | none => simp [List.filterMap_cons, List.filter_cons, h, ih]
    | some b => simp [List.filterMap_cons, List.filter_cons, h, ih]

/-- The first element found is the only one when the property selects at most
one element. -/
theorem find?_of_filter_le_one {α : Type} (p : α → Bool) (l : List α)
    (hle : (l.filter p).length ≤ 1) (a : α) (ha : a ∈ l) (hp : p a = true) :
    l.find? p = some a := by
  induction l with
  | nil => exact absurd ha (List.not_mem_nil a)
  | cons b t ih =>
    by_cases hpb : p b = true
    · have hnil : t.filter p = [] := by
        simp only [List.filter_cons, hpb, if_true, List.length_cons] at hle
        exact List.length_eq_zero.mp (by omega)
      rcases List.mem_cons.mp ha with hab | hat
      · simp [List.find?_cons, hab ▸ hp, hab]
      · have : a ∈ t.filter p := List.mem_filter.mpr ⟨hat, hp⟩
        rw [hnil] at this
        exact absurd this (List.not_mem_nil a)
    · rcases List.mem_cons.mp ha with hab | hat
      · rw [hab] at hp
        exact absurd hp hpb
      · have hle2 : (t.filter p).length ≤ 1 := by
          simpa [List.filter_cons, hpb] using hle
        simp only [List.find?_cons, hpb]
        exact ih hle2 hat

theorem statusName_inProgress (s : OrderStatus) (h : s.name = "IN_PROGRESS") :
    s = OrderStatus.IN_PROGRESS := by
  cases s
  · exact absurd h (by decide)
  · rfl
  · exact absurd h (by decide)
  · exact absurd h (by decide)

theorem findOrder_some (st : Scheduler) (i : Nat) (o : SchedOrder)
    (h : findOrder st i = some o) : o ∈ st.orders ∧ o.id = i := by
  unfold findOrder at h
  exact ⟨List.mem_of_find?_eq_some h, by simpa using List.find?_some h⟩

/-- Under the invariant a worker has at most one IN_PROGRESS order, among the
scheduler's orders and among the entries reported for it. -/
theorem schedInv_one_in_progress {st : Scheduler} (h : SchedInv st) (w : Worker)
    (hw : w ∈ st.workers) :
    (inProgressOf st w).length ≤ 1 ∧
    (((baristaView st w).assignedOrders.getD []).filter
      (fun e => e.status == "IN_PROGRESS")).length ≤ 1 := by
  constructor
  · unfold inProgressOf
    refine filter_length_le_one _ st.orders (List.Nodup.of_map _ h.orderIds) ?_
    intro a ha b hb hpa hpb
    simp only [Bool.and_eq_true, decide_eq_true_eq] at hpa hpb
    exact schedInv_order_eq h ha hb (h.oneInProgress w hw a ha b hb hpa.1 hpb.1 hpa.2 hpb.2)
  · show ((w.assignedOrders.filterMap _).filter _).length ≤ 1
    rw [List.filter_filterMap, length_filterMap_eq_filter]
    refine filter_length_le_one _ w.assignedOrders (h.historyNodup w hw) ?_
    have key : ∀ i, (Option.filter (fun e : AssignedOrder => e.status == "IN_PROGRESS")
        ((findOrder st i).map (fun o =>
          ({ id := o.id, drinkName := o.drinkName, status := o.status.name } : AssignedOrder)))
        ).isSome = true →
        ∃ o ∈ st.orders, o.id = i ∧ o.status = OrderStatus.IN_PROGRESS := by
      intro i hi
      cases hf : findOrder st i with
      | none => simp [hf] at hi
      | some o =>
        obtain ⟨hom, hoi⟩ := findOrder_some st i o hf
        refine ⟨o, hom, hoi, ?_⟩
        by_cases hs : o.status.name = "IN_PROGRESS"
        · exact statusName_inProgress _ hs
        · simp [hf, Option.filter, hs] at hi
    intro i hi j hj hpi hpj
    obtain ⟨a, ham, hai, hap⟩ := key i hpi
    obtain ⟨b, hbm, hbj, hbp⟩ := key j hpj
    rw [← hai, ← hbj]
    rw [← hai] at hi
    rw [← hbj] at hj
    exact h.oneInProgress w hw a ham b hbm hap hbp hi hj

/-- A run of the engine with three workers: two orders are submitted one
second apart and dispatched to the first two workers, one order each. -/
theorem runScheduler_two_orders :
    (runScheduler ⟨1 / 20, 1 / 20⟩ ["Alice", "Bob", "Cara"]
      [SchedEvent.submit 0 "Latte" 4 2 false, SchedEvent.submit 1000 "Mocha" 5 1 true]).workers.map
      (fun w => (w.name, w.available, w.assignedOrders)) =
      [("Alice", false, [1]), ("Bob", false, [2]), ("Cara", true, [])] := by
  decide!

/-- C13: in every state the scheduler reaches from its initial state by
submissions, ticks, completion signals and timeout sweeps, the invariant
holds and each worker has at most one assigned order whose status is
IN_PROGRESS, among the scheduler's orders and among the entries of the record
the client receives; so every IN_PROGRESS entry of that record is the order
the client shows as 'Making:'. -/
theorem scheduler_one_in_progress (cfg : ScoreConfig) (names : List String)
    (events : List SchedEvent) :
    SchedInv (runScheduler cfg names events) ∧
    ∀ w ∈ (runScheduler cfg names events).workers,
      (inProgressOf (runScheduler cfg names events) w).length ≤ 1 ∧
      (((baristaView (runScheduler cfg names events) w).assignedOrders.getD []).filter
        (fun e => e.status == "IN_PROGRESS")).length ≤ 1 ∧
      ∀ e ∈ (baristaView (runScheduler cfg names events) w).assignedOrders.getD [],
        e.status = "IN_PROGRESS" →
        currentOrder (baristaView (runScheduler cfg names events) w) = some e := by
  have hinv := schedInv_runScheduler cfg names events
  refine ⟨hinv, ?_⟩
  intro w hw
  obtain ⟨h1, h2⟩ := schedInv_one_in_progress hinv w hw
  refine ⟨h1, h2, ?_⟩
  intro e he hs
  show (some _ : Option (List AssignedOrder)).bind _ = some e
  exact find?_of_filter_le_one _ _ h2 e he (by simpa using hs)

/-! ## Login, signup and the session -/

theorem sum_units_eq_length (l : List Char) (h : ∀ c ∈ l, c.toNat < 0x10000) :
    (l.map (fun c => if c.toNat < 0x10000 then 1 else 2)).sum = l.length := by
  induction l with
  | nil => rfl
  | cons c t ih =>
    have hc := h c (List.mem_cons_self _ _)
    have ht := ih (fun x hx => h x (List.mem_cons_of_mem _ hx))
    simp only [List.map_cons, List.sum_cons, List.length_cons, hc, if_true, ht]
    omega

/-- For text of the basic plane `s.length` counts the characters. -/
theorem jsLength_eq_length (s : String) (h : ∀ c ∈ s.data, c.toNat < 0x10000) :
    jsLength s = s.length :=
  sum_units_eq_length s.data h

theorem signup_mismatch (f : SignupForm) (storage : Storage) (reply : Option AuthResponse)
    (h : f.password ≠ f.confirmPassword) :
    SignupPage.handleSubmit f storage reply =
      { form := { f with error := "Passwords do not match", loading := false }
        sent := [], stored := [], storage := storage, callback := none } := by
  unfold SignupPage.handleSubmit
  rw [if_pos h]

theorem signup_short (f : SignupForm) (storage : Storage) (reply : Option AuthResponse)
    (h1 : f.password = f.confirmPassword) (h2 : jsLength f.password < 6) :
    SignupPage.handleSubmit f storage reply =
      { form := { f with error := "Password must be at least 6 characters", loading := false }
        sent := [], stored := [], storage := storage, callback := none } := by
  unfold SignupPage.handleSubmit
  rw [if_neg (not_not.mpr h1), if_pos h2]

theorem signup_valid_sent (f : SignupForm) (storage : Storage) (reply : Option AuthResponse)
    (h1 : f.password = f.confirmPassword) (h2 : 6 ≤ jsLength f.password) :
    (SignupPage.handleSubmit f storage reply).sent = [signupRequest f] := by
  unfold SignupPage.handleSubmit
  rw [if_neg (not_not.mpr h1), if_neg (by omega)]
  cases reply with
  | none => rfl
  | some data =>
    show (if truthy data.success = true then _ else _ : AuthOutcome SignupForm).sent = _
    split_ifs <;> rfl

/-- C15: `SignupPage`'s `handleSubmit` sends the signup request if and only if
password equals confirmPassword and password.length is at least 6; otherwise
it sends nothing, stores nothing, calls no callback and ends with loading
false, the error being 'Passwords do not match' whenever the two differ and
'Password must be at least 6 characters' when they are equal but shorter. -/
theorem signup_sends_iff_valid (f : SignupForm) (storage : Storage)
    (reply : Option AuthResponse) :
    ((SignupPage.handleSubmit f storage reply).sent = [signupRequest f] ↔
      f.password = f.confirmPassword ∧ 6 ≤ jsLength f.password) ∧
    ((SignupPage.handleSubmit f storage reply).sent = [] ↔
      ¬ (f.password = f.confirmPassword ∧ 6 ≤ jsLength f.password)) ∧
    (¬ (f.password = f.confirmPassword ∧ 6 ≤ jsLength f.password) →
      (SignupPage.handleSubmit f storage reply).stored = [] ∧
      (SignupPage.handleSubmit f storage reply).storage = storage ∧
      (SignupPage.handleSubmit f storage reply).callback = none ∧
      (SignupPage.handleSubmit f storage reply).form.loading = false) ∧
    (f.password ≠ f.confirmPassword →
      (SignupPage.handleSubmit f storage reply).form.error = "Passwords do not match") ∧
    (f.password = f.confirmPassword → jsLength f.password < 6 →
      (SignupPage.handleSubmit f storage reply).form.error
        = "Password must be at least 6 characters") := by
  by_cases h1 : f.password = f.confirmPassword
  · by_cases h2 : jsLength f.password < 6
    · have h3 : ¬ (f.password = f.confirmPassword ∧ 6 ≤ jsLength f.password) :=
        fun hc => absurd hc.2 (by omega)
      rw [signup_short f storage reply h1 h2]
      refine ⟨⟨fun hc => ?_, fun hc => absurd hc h3⟩, ⟨fun _ => h3, fun _ => rfl⟩,
        fun _ => ⟨rfl, rfl, rfl, rfl⟩, fun hc => absurd h1 hc, fun _ _ => rfl⟩
      exact absurd hc (by simp)
    · have h3 : f.password = f.confirmPassword ∧ 6 ≤ jsLength f.password := ⟨h1, by omega⟩
      have hs := signup_valid_sent f storage reply h1 h3.2
      refine ⟨⟨fun _ => h3, fun _ => hs⟩, ⟨fun hc => ?_, fun hc => absurd h3 hc⟩,
        fun hc => absurd h3 hc, fun hc => absurd h1 hc, fun _ hc => absurd hc h2⟩
      rw [hs] at hc
      exact absurd hc (by simp)
  · have h3 : ¬ (f.password = f.confirmPassword ∧ 6 ≤ jsLength f.password) :=
      fun hc => h1 hc.1
    rw [signup_mismatch f storage reply h1]
    refine ⟨⟨fun hc => ?_, fun hc => absurd hc h3⟩, ⟨fun _ => h3, fun _ => rfl⟩,
      fun _ => ⟨rfl, rfl, rfl, rfl⟩, fun _ => rfl, fun hc => absurd hc h1⟩
    exact absurd hc (by simp)

/-- C16: for every login response, `LoginPage`'s `handleSubmit` stores token
and username and calls `onLogin` if and only if the success flag is truthy; for
a response whose flag is not, it stores nothing, calls nothing and shows the
response's message when that is a non-empty string and 'Login failed'
otherwise; in every path, a failed request included, loading ends false. -/
theorem login_stores_iff_success (f : LoginForm) (storage : Storage) (data : AuthResponse) :
    ((LoginPage.handleSubmit f storage (some data)).callback = some data ↔
      truthy data.success = true) ∧
    ((LoginPage.handleSubmit f storage (some data)).stored =
        [("token", storedText data.token), ("username", storedText data.username)] ↔
      truthy data.success = true) ∧
    (truthy data.success = true →
      (LoginPage.handleSubmit f storage (some data)).storage.getItem "token"
        = some (storedText data.token) ∧
      (LoginPage.handleSubmit f storage (some data)).storage.getItem "username"
        = some (storedText data.username)) ∧
    (truthy data.success = false →
      (LoginPage.handleSubmit f storage (some data)).stored = [] ∧
      (LoginPage.handleSubmit f storage (some data)).storage = storage ∧
      (LoginPage.handleSubmit f storage (some data)).callback = none ∧
      (LoginPage.handleSubmit f storage (some data)).form.error =
        (match data.message with
         | some m => if m ≠ "" then m else "Login failed"
         | none => "Login failed")) ∧
    (∀ reply, (LoginPage.handleSubmit f storage reply).form.loading = false) ∧
    (LoginPage.handleSubmit f storage none).stored = [] ∧
    (LoginPage.handleSubmit f storage none).callback = none := by
  refine ⟨?_, ?_, ?_, ?_, ?_, rfl, rfl⟩
  · cases h : truthy data.success <;> simp [LoginPage.handleSubmit, h]
  · cases h : truthy data.success <;> simp [LoginPage.handleSubmit, h]
  · intro h
    simp [LoginPage.handleSubmit, h, Storage.getItem, Storage.setItem, List.lookup]
  · intro h
    simp [LoginPage.handleSubmit, h, messageOr]
  · intro reply
    cases reply with
    | none => rfl
    | some d =>
      cases h : truthy d.success <;> simp [LoginPage.handleSubmit, h]

theorem getItem_removeItem_self (s : Storage) (key : String) :
    (s.removeItem key).getItem key = none := by
  unfold Storage.removeItem Storage.getItem
  induction s with
  | nil => rfl
  | cons kv t ih =>
    by_cases hk : kv.1 = key
    · simp [List.filter_cons, hk, ih]
    · have hk2 : (key == kv.1) = false := by
        simp only [beq_eq_false_iff_ne, ne_eq]
        exact fun h => hk h.symm
      simp [List.filter_cons, hk, List.lookup, hk2, ih]

theorem getItem_removeItem_none (s : Storage) (key other : String)
    (h : s.getItem key = none) : (s.removeItem other).getItem key = none := by
  unfold Storage.removeItem Storage.getItem at *
  induction s with
  | nil => rfl
  | cons kv t ih =>
    by_cases hk : (key == kv.1) = true
    · simp [List.lookup, hk] at h
    · have hk2 : (key == kv.1) = false := by simpa using hk
      simp only [List.lookup, hk2] at h
      by_cases ho : kv.1 = other
      · simp [List.filter_cons, ho, ih h]
      · simp [List.filter_cons, ho, List.lookup, hk2, ih h]

/-- C19: after `handleLogout`, whatever the state before, `localStorage` holds
neither 'token' nor 'username', user is null, page is 'login' and currentView
is 'dashboard'; a later mount of `App` with that storage restores no session
and, when the URL is not an OAuth callback, `App` renders the login page, both
right after the logout and after the later mount. -/
theorem logout_is_complete (storage : Storage) (st : AppState) (loc : Location) :
    (handleLogout storage st).1.getItem "token" = none ∧
    (handleLogout storage st).1.getItem "username" = none ∧
    (handleLogout storage st).2.user = none ∧
    (handleLogout storage st).2.page = "login" ∧
    (handleLogout storage st).2.currentView = "dashboard" ∧
    mountApp loc (handleLogout storage st).1 = AppState.initial ∧
    (isOAuthCallback loc = false →
      renderApp loc (handleLogout storage st).2 = View.loginPage ∧
      renderApp loc (mountApp loc (handleLogout storage st).1) = View.loginPage) := by
  have ht : (handleLogout storage st).1.getItem "token" = none :=
    getItem_removeItem_none _ "token" "username" (getItem_removeItem_self storage "token")
  have hu : (handleLogout storage st).1.getItem "username" = none :=
    getItem_removeItem_self _ "username"
  have hm : mountApp loc (handleLogout storage st).1 = AppState.initial := by
    unfold mountApp restoreSession
    split_ifs
    · rfl
    · rw [ht]
  refine ⟨ht, hu, rfl, rfl, rfl, hm, ?_⟩
  intro hloc
  rw [hm]
  constructor
  · simp [renderApp, hloc, handleLogout]
  · simp [renderApp, hloc, AppState.initial]

/-! ## Polling -/

/-- With no timer active nothing happens but the passing of time. -/
theorem advance_no_timers (b : Browser) (h : b.timers = []) (ms : Nat) :
    advance ms b = { b with now := b.now + ms } := by
  induction ms with
  | zero => rfl
  | succ n ih =>
    show advance1 (advance n b) = _
    rw [ih]
    simp [advance1, h, Nat.add_assoc]

/-- The browser `ms` milliseconds after the polling effect ran in a browser
with no other timer: one timer, due at the next multiple of 2000 ms, and one
call of `fetchData` at the start and at every multiple of 2000 ms since. -/
theorem advance_pollingEffect (b : Browser) (h : b.timers = []) (username : String)
    (ms : Nat) :
    advance ms (pollingEffect b username).1 =
      { now := b.now + ms
        timers := [{ id := b.nextTimerId, period := 2000,
                     due := b.now + 2000 * (ms / 2000 + 1), username := username }]
        nextTimerId := b.nextTimerId + 1
        fetchCalls := b.fetchCalls ++
          (List.range (ms / 2000 + 1)).map (fun k => (b.now + 2000 * k, username)) } := by
  induction ms with
  | zero =>
    simp [advance, pollingEffect, setInterval, callFetchData, h, List.range_succ]
  | succ n ih =>
    show advance1 (advance n (pollingEffect b username).1) = _
    rw [ih]
    by_cases hdue : (n + 1) % 2000 = 0
    · have hq : (n + 1) / 2000 = n / 2000 + 1 := by omega
      have hle : b.now + 2000 * (n / 2000 + 1) ≤ b.now + n + 1 := by omega
      have heq : b.now + n + 1 = b.now + 2000 * (n / 2000 + 1) := by omega
      simp only [advance1, List.map_cons, List.map_nil, hle, if_true, decide_True,
        List.filter_cons, List.filter_nil, hq, List.range_succ (n / 2000 + 1), List.map_append,
        List.append_assoc, Browser.mk.injEq, List.cons.injEq, IntervalTimer.mk.injEq,
        and_true, true_and]
      refine ⟨by omega, by omega, ?_⟩
      rw [heq]
    · have hq : (n + 1) / 2000 = n / 2000 := by omega
      have hle : ¬ b.now + 2000 * (n / 2000 + 1) ≤ b.now + n + 1 := by omega
      simp only [advance1, List.map_cons, List.map_nil, hle, if_false, decide_False,
        List.filter_cons, List.filter_nil, hq, List.append_nil, Browser.mk.injEq, and_true,
        true_and, Bool.false_eq_true]
      omega

theorem pollingCleanup_advance_pollingEffect (b : Browser) (h : b.timers = [])
    (username : String) (ms : Nat) :
    (pollingCleanup (advance ms (pollingEffect b username).1) (pollingEffect b username).2).timers
      = [] := by
  rw [advance_pollingEffect b h]
  simp [pollingCleanup, clearInterval, pollingEffect, setInterval, callFetchData]

/-- C14: a `Dashboard` mounted at time t0 has, d ms later, called `fetchData`
(the four requests for queue, baristas, stats and alerts) at t0 and at every
t0 + 2000k up to then, and at no other time; after the cleanup (unmount, or a
change of username) no timer is left and the passing of time adds no call; and
when the effect runs again for another username, the calls that follow are
those of the new effect only, at once and then every 2000 ms. -/
theorem polling_every_2000ms (t0 d e : Nat) (username other : String)
    (encode : String → String) :
    (mountedFor t0 username d).fetchCalls =
      (List.range (d / 2000 + 1)).map (fun k => (t0 + 2000 * k, username)) ∧
    (cleanedUpAfter t0 username d).timers = [] ∧
    (advance e (cleanedUpAfter t0 username d)).fetchCalls = (mountedFor t0 username d).fetchCalls ∧
    (advance e (pollingEffect (cleanedUpAfter t0 username d) other).1).fetchCalls =
      (mountedFor t0 username d).fetchCalls ++
        (List.range (e / 2000 + 1)).map (fun k => (t0 + d + 2000 * k, other)) ∧
    fetchDataUrls encode username =
      ["http://localhost:8080/api/orders?username=" ++ encode username,
       "http://localhost:8080/api/baristas",
       "http://localhost:8080/api/stats?username=" ++ encode username,
       "http://localhost:8080/api/alerts"] := by
  have hstart : (Browser.start t0).timers = [] := rfl
  have hclean : (cleanedUpAfter t0 username d).timers = [] :=
    pollingCleanup_advance_pollingEffect (Browser.start t0) hstart username d
  have hcalls : (cleanedUpAfter t0 username d).fetchCalls = (mountedFor t0 username d).fetchCalls :=
    rfl
  have hnow : (cleanedUpAfter t0 username d).now = t0 + d := by
    show (mountedFor t0 username d).now = t0 + d
    unfold mountedFor
    rw [advance_pollingEffect (Browser.start t0) hstart]
    rfl
  refine ⟨?_, hclean, ?_, ?_, ?_⟩
  · unfold mountedFor
    rw [advance_pollingEffect (Browser.start t0) hstart]
    simp [Browser.start]
  · rw [advance_no_timers _ hclean]
    exact hcalls
  · rw [advance_pollingEffect _ hclean]
    simp only [hcalls, hnow]
  · simp [fetchDataUrls, API_BASE]

end CoffeeShop
